import Mathlib

/- Verification of the tabReaper browser-extension pipeline (src/src/popup.ts and
   src/src/obsidian-rest.ts).  The TypeScript functions are shallowly embedded as
   executable Lean definitions over `List Char` strings; browser and network
   effects (script injection, AI calls, vault writes) are passed in as explicit
   oracle parameters, with `none` standing for a thrown exception. -/

set_option linter.unusedVariables false
set_option maxRecDepth 16000

namespace TabReaper

/-- Strings are modelled as lists of characters (JS strings are sequences of
    UTF-16 code units; every character appearing in this development is in the
    BMP, where the two views agree). -/
abbrev Str := List Char

/-- Coerce a Lean string literal to the model representation. -/
def str (s : String) : Str := s.toList

/-- JS whitespace class `\s` restricted to the ASCII range (space, tab, LF, CR,
    vertical tab, form feed); the only whitespace characters that occur in the
    program's data. -/
def isWs (c : Char) : Bool :=
  c = ' ' || c = '\t' || c = '\n' || c = '\r' || c = Char.ofNat 11 || c = Char.ofNat 12

/-- Remove trailing whitespace. -/
def trimRight : Str → Str
  | [] => []
  | c :: t =>
    let r := trimRight t
    if r.isEmpty && isWs c then [] else c :: r

/-- JS `String.prototype.trim`: strip leading and trailing whitespace. -/
def trimList (l : Str) : Str := trimRight (l.dropWhile isWs)

/-- Helper for `collapseWs`; the flag records whether the previous character was
    whitespace (so a run contributes a single space). -/
def collapseWsAux : Bool → Str → Str
  | _, [] => []
  | prevWs, c :: t =>
    if isWs c then
      if prevWs then collapseWsAux true t else ' ' :: collapseWsAux true t
    else c :: collapseWsAux false t

/-- JS `s.replace(/\s+/g, " ")`: each maximal whitespace run becomes one space. -/
def collapseWs (l : Str) : Str := collapseWsAux false l

/-- ASCII lower-casing, as done by a case-insensitive JS regex over ASCII
    patterns. -/
def lowerChar (c : Char) : Char :=
  if 'A' ≤ c && c ≤ 'Z' then Char.ofNat (c.toNat + 32) else c

/-- Lower-case a string character-wise. -/
def lowerStr (l : Str) : Str := l.map lowerChar

/-- JS `Array.prototype.join(sep)`. -/
def joinSep (sep : Str) : List Str → Str
  | [] => []
  | [l] => l
  | l :: l2 :: ls => l ++ sep ++ joinSep sep (l2 :: ls)

/-- `array.join("\n")`, the join used throughout the note builder. -/
def joinNL (ls : List Str) : Str := joinSep (str "\n") ls

/-- Scan `l` (whose first index is `i`) for the first position where `pat` is a
    prefix of the remaining suffix. -/
def findFromAux (pat : Str) : Str → Nat → Option Nat
  | [], i => if pat.isPrefixOf [] then some i else none
  | c :: t, i => if pat.isPrefixOf (c :: t) then some i else findFromAux pat t (i + 1)

/-- JS `s.indexOf(pat, start)`, returning `none` for `-1`. -/
def indexOfFrom (s pat : Str) (start : Nat) : Option Nat :=
  findFromAux pat (s.drop start) start

/-- `pat` occurs in `s` starting at index `i`. -/
def occursAt (pat s : Str) (i : Nat) : Bool := pat.isPrefixOf (s.drop i)

/-- `pat` occurs somewhere in `s` (JS `s.includes(pat)`). -/
def containsSubstr (s pat : Str) : Bool := (indexOfFrom s pat 0).isSome

theorem findFromAux_some (pat : Str) :
    ∀ (l : Str) (i r : Nat), findFromAux pat l i = some r →
      ∃ k, r = i + k ∧ pat.isPrefixOf (l.drop k) = true ∧
        ∀ m, m < k → pat.isPrefixOf (l.drop m) = false := by
  intro l
  induction l with
  | nil =>
    intro i r h
    simp only [findFromAux] at h
    by_cases hp : pat.isPrefixOf ([] : Str) = true
    · refine ⟨0, ?_, ?_, ?_⟩
      · simp [hp] at h; omega
      · simpa using hp
      · intro m hm; omega
    · simp [hp] at h
  | cons c t ih =>
    intro i r h
    simp only [findFromAux] at h
    by_cases hp : pat.isPrefixOf (c :: t) = true
    · refine ⟨0, ?_, ?_, ?_⟩
      · simp [hp] at h; omega
      · simpa using hp
      · intro m hm; omega
    · simp [hp] at h
      obtain ⟨k, hk, hocc, hmin⟩ := ih (i + 1) r h
      refine ⟨k + 1, by omega, by simpa using hocc, ?_⟩
      intro m hm
      cases m with
      | zero => simpa using eq_false_of_ne_true hp
      | succ m2 =>
        have := hmin m2 (by omega)
        simpa using this

theorem findFromAux_none (pat : Str) (hne : pat ≠ []) :
    ∀ (l : Str) (i : Nat), findFromAux pat l i = none →
      ∀ k, pat.isPrefixOf (l.drop k) = false := by
  intro l
  induction l with
  | nil =>
    intro i h k
    cases pat with
    | nil => exact absurd rfl hne
    | cons p ps => simp [List.isPrefixOf]
  | cons c t ih =>
    intro i h k
    simp only [findFromAux] at h
    by_cases hp : pat.isPrefixOf (c :: t) = true
    · simp [hp] at h
    · simp [hp] at h
      cases k with
      | zero => simpa using eq_false_of_ne_true hp
      | succ k2 => simpa using ih (i + 1) h k2

theorem indexOfFrom_some (s pat : Str) (start r : Nat)
    (h : indexOfFrom s pat start = some r) :
    start ≤ r ∧ occursAt pat s r = true ∧
      ∀ j, start ≤ j → j < r → occursAt pat s j = false := by
  obtain ⟨k, hk, hocc, hmin⟩ := findFromAux_some pat (s.drop start) start r h
  have hdd : ∀ m : Nat, (s.drop start).drop m = s.drop (start + m) := by
    intro m; rw [List.drop_drop]
  refine ⟨by omega, ?_, ?_⟩
  · unfold occursAt
    rw [hk, ← hdd k]
    exact hocc
  · intro j hj1 hj2
    unfold occursAt
    have : s.drop j = (s.drop start).drop (j - start) := by
      rw [hdd (j - start)]; congr 1; omega
    rw [this]
    exact hmin (j - start) (by omega)

theorem indexOfFrom_none (s pat : Str) (hne : pat ≠ []) (start : Nat)
    (h : indexOfFrom s pat start = none) :
    ∀ j, start ≤ j → occursAt pat s j = false := by
  intro j hj
  unfold occursAt
  have : s.drop j = (s.drop start).drop (j - start) := by
    rw [List.drop_drop]; congr 1; omega
  rw [this]
  exact findFromAux_none pat hne (s.drop start) start h (j - start)

theorem indexOfFrom_isSome_of_occursAt (s pat : Str) (hne : pat ≠ []) (start j : Nat)
    (hj : start ≤ j) (hocc : occursAt pat s j = true) :
    (indexOfFrom s pat start).isSome = true := by
  cases hidx : indexOfFrom s pat start with
  | none =>
    have := indexOfFrom_none s pat hne start hidx j hj
    rw [this] at hocc
    exact absurd hocc (by simp)
  | some r => simp

theorem isPrefixOf_append_self (p s : Str) : p.isPrefixOf (p ++ s) = true := by
  induction p with
  | nil => simp [List.isPrefixOf]
  | cons c t ih => simp [List.isPrefixOf, ih]

theorem occursAt_of_decomp (s pat a b : Str) (hs : s = a ++ pat ++ b) :
    occursAt pat s a.length = true := by
  subst hs
  unfold occursAt
  rw [List.append_assoc, List.drop_left]
  exact isPrefixOf_append_self pat b

theorem containsSubstr_of_decomp (s pat a b : Str) (hne : pat ≠ [])
    (hs : s = a ++ pat ++ b) : containsSubstr s pat = true :=
  indexOfFrom_isSome_of_occursAt s pat hne 0 a.length (Nat.zero_le _)
    (occursAt_of_decomp s pat a b hs)

theorem joinSep_mem_decomp (sep : Str) (lines : List Str) (x : Str) (hx : x ∈ lines) :
    ∃ a b, joinSep sep lines = a ++ x ++ b := by
  induction lines with
  | nil => cases hx
  | cons l ls ih =>
    cases hx with
    | head =>
      cases ls with
      | nil => exact ⟨[], [], by simp [joinSep]⟩
      | cons l2 ls2 => exact ⟨[], sep ++ joinSep sep (l2 :: ls2), by simp [joinSep]⟩
    | tail _ hmem =>
      obtain ⟨a, b, hab⟩ := ih hmem
      cases ls with
      | nil => cases hmem
      | cons l2 ls2 =>
        exact ⟨l ++ sep ++ a, b, by simp [joinSep, hab, List.append_assoc]⟩

theorem containsSubstr_joinNL_append (lines : List Str) (x rest : Str)
    (hx : x ∈ lines) (hne : x ≠ []) :
    containsSubstr (joinNL lines ++ rest) x = true := by
  obtain ⟨a, b, hab⟩ := joinSep_mem_decomp (str "\n") lines x hx
  exact containsSubstr_of_decomp _ x a (b ++ rest) hne
    (by simp [joinNL, hab, List.append_assoc])

theorem trimRight_idem (l : Str) : trimRight (trimRight l) = trimRight l := by
  induction l with
  | nil => rfl
  | cons c t ih =>
    have hstep : trimRight (c :: t) =
        if (trimRight t).isEmpty && isWs c then [] else c :: trimRight t := rfl
    rw [hstep]
    by_cases hc : ((trimRight t).isEmpty && isWs c) = true
    · rw [if_pos hc]; rfl
    · rw [if_neg hc]
      have hstep2 : trimRight (c :: trimRight t) =
          if (trimRight (trimRight t)).isEmpty && isWs c then []
          else c :: trimRight (trimRight t) := rfl
      rw [hstep2, ih, if_neg hc]

theorem dropWhile_trimRight_eq_self (p : Char → Bool) (l : Str)
    (h : l.dropWhile p = l) : (trimRight l).dropWhile p = trimRight l := by
  cases l with
  | nil => rfl
  | cons c t =>
    by_cases hc : p c = true
    · exfalso
      have hlen : (t.dropWhile p).length ≤ t.length := (List.dropWhile_sublist p).length_le
      rw [List.dropWhile_cons, if_pos hc] at h
      have : (t.dropWhile p).length = (c :: t).length := by rw [h]
      simp at this
      omega
    · have hstep : trimRight (c :: t) =
          if (trimRight t).isEmpty && isWs c then [] else c :: trimRight t := rfl
      rw [hstep]
      by_cases he : ((trimRight t).isEmpty && isWs c) = true
      · rw [if_pos he]; rfl
      · rw [if_neg he, List.dropWhile_cons, if_neg hc]

theorem trimList_idem (l : Str) : trimList (trimList l) = trimList l := by
  unfold trimList
  rw [dropWhile_trimRight_eq_self isWs (l.dropWhile isWs) (List.dropWhile_idempotent ..),
    trimRight_idem]

/- ===================== Chat turn normalization (popup.ts) ===================== -/

/-- A chat turn `{role, text}` as produced by `extractTurnsFromRawText`. -/
structure Turn where
  role : Str
  text : Str
deriving DecidableEq, Repr

/-- `s.replace(/\s+/g, " ").trim()`, the whitespace normalization used for
    dedupe keys. -/
def wsNorm (s : Str) : Str := trimList (collapseWs s)

/-- The dedupe key `role + ":" + normalized text` computed by `dedupeTurns`
    (the turn's text is trimmed before normalization, as in the source). -/
def keyOf (t : Turn) : Str := t.role ++ str ":" ++ wsNorm (trimList t.text)

/-- The pair `(role, whitespace-normalized text)` the spec describes the key as. -/
def pairKey (t : Turn) : Str × Str := (t.role, wsNorm (trimList t.text))

/-- Loop of `dedupeTurns` (popup.ts:1445-1457); `seen` is the JS `Set` of keys. -/
def dedupeTurnsAux (seen : List Str) : List Turn → List Turn
  | [] => []
  | t :: rest =>
    let text := trimList t.text
    if text = [] then dedupeTurnsAux seen rest
    else
      let key := t.role ++ str ":" ++ wsNorm text
      if key ∈ seen then dedupeTurnsAux seen rest
      else ⟨t.role, text⟩ :: dedupeTurnsAux (key :: seen) rest

/-- `dedupeTurns` (popup.ts:1445-1457): drop empty-trim turns and, per
    `(role, normalized text)` key, keep only the first occurrence. -/
def dedupeTurns (turns : List Turn) : List Turn := dedupeTurnsAux [] turns

/-- Trimming a turn's text, the shape of every turn `dedupeTurns` emits. -/
def trimTurn (t : Turn) : Turn := ⟨t.role, trimList t.text⟩

theorem keyOf_trimTurn (t : Turn) : keyOf (trimTurn t) = keyOf t := by
  simp [keyOf, trimTurn, trimList_idem]

theorem keyOf_cons_eq (t : Turn) :
    t.role ++ str ":" ++ wsNorm (trimList t.text) = keyOf t := rfl

theorem dedupeTurnsAux_invariant (ts : List Turn) :
    ∀ (seen : List Str), ∀ u ∈ dedupeTurnsAux seen ts,
      u.text = trimList u.text ∧ u.text ≠ [] ∧ keyOf u ∉ seen := by
  induction ts with
  | nil => intro seen u hu; cases hu
  | cons t rest ih =>
    intro seen u hu
    rw [show dedupeTurnsAux seen (t :: rest) =
        (if trimList t.text = [] then dedupeTurnsAux seen rest
         else if keyOf t ∈ seen then dedupeTurnsAux seen rest
         else trimTurn t :: dedupeTurnsAux (keyOf t :: seen) rest) from rfl] at hu
    by_cases hemp : trimList t.text = []
    · rw [if_pos hemp] at hu; exact ih seen u hu
    · rw [if_neg hemp] at hu
      by_cases hseen : keyOf t ∈ seen
      · rw [if_pos hseen] at hu; exact ih seen u hu
      · rw [if_neg hseen] at hu
        rcases List.mem_cons.mp hu with h1 | h2
        · subst h1
          refine ⟨by simp [trimTurn, trimList_idem], ?_, ?_⟩
          · simpa [trimTurn] using hemp
          · rw [keyOf_trimTurn]; exact hseen
        · have := ih (keyOf t :: seen) u h2
          exact ⟨this.1, this.2.1, fun hmem => this.2.2 (List.mem_cons_of_mem _ hmem)⟩

theorem dedupeTurnsAux_pairwise (ts : List Turn) :
    ∀ (seen : List Str),
      List.Pairwise (fun u v => keyOf u ≠ keyOf v) (dedupeTurnsAux seen ts) := by
  induction ts with
  | nil => intro seen; exact List.Pairwise.nil
  | cons t rest ih =>
    intro seen
    rw [show dedupeTurnsAux seen (t :: rest) =
        (if trimList t.text = [] then dedupeTurnsAux seen rest
         else if keyOf t ∈ seen then dedupeTurnsAux seen rest
         else trimTurn t :: dedupeTurnsAux (keyOf t :: seen) rest) from rfl]
    by_cases hemp : trimList t.text = []
    · rw [if_pos hemp]; exact ih seen
    · rw [if_neg hemp]
      by_cases hseen : keyOf t ∈ seen
      · rw [if_pos hseen]; exact ih seen
      · rw [if_neg hseen]
        refine List.Pairwise.cons ?_ (ih _)
        intro v hv heq
        have hinv := dedupeTurnsAux_invariant rest (keyOf t :: seen) v hv
        rw [keyOf_trimTurn] at heq
        exact hinv.2.2 (heq ▸ List.mem_cons_self _ _)

theorem dedupeTurnsAux_sublist (ts : List Turn) :
    ∀ (seen : List Str), List.Sublist (dedupeTurnsAux seen ts) (ts.map trimTurn) := by
  induction ts with
  | nil => intro seen; simp [dedupeTurnsAux]
  | cons t rest ih =>
    intro seen
    rw [show dedupeTurnsAux seen (t :: rest) =
        (if trimList t.text = [] then dedupeTurnsAux seen rest
         else if keyOf t ∈ seen then dedupeTurnsAux seen rest
         else trimTurn t :: dedupeTurnsAux (keyOf t :: seen) rest) from rfl,
      List.map_cons]
    by_cases hemp : trimList t.text = []
    · rw [if_pos hemp]; exact (ih seen).cons (trimTurn t)
    · rw [if_neg hemp]
      by_cases hseen : keyOf t ∈ seen
      · rw [if_pos hseen]; exact (ih seen).cons (trimTurn t)
      · rw [if_neg hseen]; exact (ih _).cons₂ (trimTurn t)

theorem dedupeTurnsAux_key_present (ts : List Turn) :
    ∀ (seen : List Str), ∀ t ∈ ts, trimList t.text ≠ [] →
      keyOf t ∈ seen ∨ ∃ u ∈ dedupeTurnsAux seen ts, keyOf u = keyOf t := by
  induction ts with
  | nil => intro seen t ht; cases ht
  | cons hd rest ih =>
    intro seen t ht htne
    rw [show dedupeTurnsAux seen (hd :: rest) =
        (if trimList hd.text = [] then dedupeTurnsAux seen rest
         else if keyOf hd ∈ seen then dedupeTurnsAux seen rest
         else trimTurn hd :: dedupeTurnsAux (keyOf hd :: seen) rest) from rfl]
    by_cases hemp : trimList hd.text = []
    · rw [if_pos hemp]
      cases ht with
      | head => exact absurd hemp htne
      | tail _ hmem => exact ih seen t hmem htne
    · rw [if_neg hemp]
      by_cases hseen : keyOf hd ∈ seen
      · rw [if_pos hseen]
        cases ht with
        | head => exact Or.inl hseen
        | tail _ hmem => exact ih seen t hmem htne
      · rw [if_neg hseen]
        cases ht with
        | head =>
          exact Or.inr ⟨trimTurn hd, List.mem_cons_self _ _, keyOf_trimTurn hd⟩
        | tail _ hmem =>
          rcases ih (keyOf hd :: seen) t hmem htne with hin | ⟨u, hu, hk⟩
          · rcases List.mem_cons.mp hin with h1 | h2
            · exact Or.inr ⟨trimTurn hd, List.mem_cons_self _ _, by rw [keyOf_trimTurn, ← h1]⟩
            · exact Or.inl h2
          · exact Or.inr ⟨u, List.mem_cons_of_mem _ hu, hk⟩

theorem dedupeTurnsAux_fixed (l : List Turn) :
    ∀ (seen : List Str),
      (∀ u ∈ l, u.text = trimList u.text ∧ u.text ≠ []) →
      List.Pairwise (fun u v => keyOf u ≠ keyOf v) l →
      (∀ u ∈ l, keyOf u ∉ seen) →
      dedupeTurnsAux seen l = l := by
  induction l with
  | nil => intro seen _ _ _; rfl
  | cons u rest ih =>
    intro seen h1 h2 h3
    have hu := h1 u (List.mem_cons_self _ _)
    have hemp : ¬ trimList u.text = [] := by rw [← hu.1]; exact hu.2
    rw [show dedupeTurnsAux seen (u :: rest) =
        (if trimList u.text = [] then dedupeTurnsAux seen rest
         else if keyOf u ∈ seen then dedupeTurnsAux seen rest
         else trimTurn u :: dedupeTurnsAux (keyOf u :: seen) rest) from rfl,
      if_neg hemp, if_neg (h3 u (List.mem_cons_self _ _))]
    have hu_eq : trimTurn u = u := by
      unfold trimTurn
      rw [← hu.1]
    rw [hu_eq, ih (keyOf u :: seen) (fun v hv => h1 v (List.mem_cons_of_mem _ hv))
      ((List.pairwise_cons.mp h2).2) ?_]
    intro v hv
    rw [List.mem_cons, not_or]
    exact ⟨fun hvk => (List.pairwise_cons.mp h2).1 v hv hvk.symm,
      h3 v (List.mem_cons_of_mem _ hv)⟩

theorem dedupeTurns_idem (ts : List Turn) :
    dedupeTurns (dedupeTurns ts) = dedupeTurns ts := by
  unfold dedupeTurns
  apply dedupeTurnsAux_fixed
  · intro u hu
    have := dedupeTurnsAux_invariant ts [] u hu
    exact ⟨this.1, this.2.1⟩
  · exact dedupeTurnsAux_pairwise ts []
  · intro u hu
    simp

/- ===================== URL extraction (popup.ts:1744-1769) ===================== -/

/-- Characters allowed inside a URL match: the complement of the regex class
    `[\s<>"')\]]` in `/https?:\/\/[^\s<>"')\]]+/g`. -/
def urlAllowed (c : Char) : Bool :=
  !(isWs c || c = '<' || c = '>' || c = '"' || c = Char.ofNat 39 || c = ')' || c = ']')

/-- Left-to-right global matching of `/https?:\/\/[^\s<>"')\]]+/g`: at each
    position try `https://` then `http://` followed by a non-empty allowed run;
    on a match, continue after it; otherwise advance one character.  The fuel
    argument (initially the string length, consumed once per step while the
    list shrinks by at least one character) keeps the recursion structural. -/
def scanUrlsAux : Nat → Str → List Str
  | 0, _ => []
  | _ + 1, [] => []
  | fuel + 1, c :: t =>
    if (str "https://").isPrefixOf (c :: t) then
      let run := ((c :: t).drop 8).takeWhile urlAllowed
      if run = [] then scanUrlsAux fuel t
      else (str "https://" ++ run) :: scanUrlsAux fuel (((c :: t).drop 8).dropWhile urlAllowed)
    else if (str "http://").isPrefixOf (c :: t) then
      let run := ((c :: t).drop 7).takeWhile urlAllowed
      if run = [] then scanUrlsAux fuel t
      else (str "http://" ++ run) :: scanUrlsAux fuel (((c :: t).drop 7).dropWhile urlAllowed)
    else scanUrlsAux fuel t

/-- The regex scan of `extractUrlsFromText`. -/
def scanUrls (s : Str) : List Str := scanUrlsAux s.length s

/-- The trailing punctuation stripped by `u.replace(/[.,;:!?)]+$/, "")`. -/
def trailingPunct (c : Char) : Bool :=
  c = '.' || c = ',' || c = ';' || c = ':' || c = '!' || c = '?' || c = ')'

/-- `u.replace(/[.,;:!?)]+$/, "")`. -/
def stripTrailingPunct (u : Str) : Str := (u.reverse.dropWhile trailingPunct).reverse

/-- `[...new Set(xs)]`: remove duplicates keeping first occurrences in
    insertion order. -/
def dedupFirstAux (seen : List Str) : List Str → List Str
  | [] => []
  | u :: t => if u ∈ seen then dedupFirstAux seen t else u :: dedupFirstAux (u :: seen) t

/-- Deduplicate a list of strings, keeping first occurrences. -/
def dedupFirst (l : List Str) : List Str := dedupFirstAux [] l

/-- `extractUrlsFromText` (popup.ts:1750-1756): extract http(s) URLs from body
    text, strip trailing punctuation, deduplicate, cap at 20. -/
def extractUrlsFromText (text : Str) : List Str :=
  if trimList text = [] then []
  else (dedupFirst ((scanUrls text).map stripTrailingPunct)).take 20

/-- `hrefFromObsidianLink` (popup.ts:1744-1747): first position where
    `](http(s):...)` runs to the end of the string over non-space characters;
    returns the captured URL. -/
def hrefFromObsidianLink (l : Str) : Option Str :=
  hrefFromObsidianLinkAux l
where
  /-- Try each start position from the left, as the regex engine does. -/
  hrefFromObsidianLinkAux : Str → Option Str
    | [] => none
    | c :: t =>
      let s := c :: t
      if ((str "](").isPrefixOf s) then
        let u := (s.drop 2).take ((s.drop 2).length - 1)
        if (((str "http:").isPrefixOf u && decide (u.length ≥ 6)) ||
              ((str "https:").isPrefixOf u && decide (u.length ≥ 7))) &&
            u.all (fun x => !isWs x) &&
            s.getLastD ' ' = ')' then some u
        else hrefFromObsidianLinkAux t
      else hrefFromObsidianLinkAux t

/- ============== Source type and filename helpers (popup.ts:963-998, 1735-1741, 1824-1830) ============== -/

/-- Strip an optional prefix, used for the optional groups of the anchored host
    regexes. -/
def stripOpt (p : Str) (s : Str) : Str := if p.isPrefixOf s then s.drop p.length else s

/-- `TWITTER_HOST_RE = /^(https?:\/\/)?(www\.)?(twitter\.com|x\.com)(\/|$)/i`. -/
def twitterHostTest (url : Str) : Bool :=
  let l := lowerStr url
  let a := stripOpt (str "https://") (stripOpt (str "http://") l)
  let b := stripOpt (str "www.") a
  b = str "twitter.com" || (str "twitter.com/").isPrefixOf b ||
    b = str "x.com" || (str "x.com/").isPrefixOf b

/-- `YOUTUBE_HOST_RE = /^(https?:\/\/)?(www\.)?(youtube\.com|youtu\.be)(\/|$)/i`. -/
def youtubeHostTest (url : Str) : Bool :=
  let l := lowerStr url
  let a := stripOpt (str "https://") (stripOpt (str "http://") l)
  let b := stripOpt (str "www.") a
  b = str "youtube.com" || (str "youtube.com/").isPrefixOf b ||
    b = str "youtu.be" || (str "youtu.be/").isPrefixOf b

/-- `/\.pdf(\?|#|$)/i`: `.pdf` followed by `?`, `#` or end of string. -/
def pdfTest : Str → Bool
  | [] => false
  | c :: t =>
    let l := c :: t
    ((str ".pdf").isPrefixOf (lowerStr l) &&
      (l.length = 4 || l.getD 4 ' ' = '?' || l.getD 4 ' ' = '#')) || pdfTest t

/-- `detectSourceType` (popup.ts:977-982). -/
def detectSourceType (url : Str) : Str :=
  if twitterHostTest url then str "x"
  else if youtubeHostTest url then str "youtube"
  else if pdfTest url then str "paper"
  else str "web"

/-- The filesystem-illegal characters `[/\\:*?"<>|]` replaced by `_` in
    `getBaseForTab`. -/
def illegalFileChar (c : Char) : Bool :=
  c = '/' || c = '\\' || c = ':' || c = '*' || c = '?' || c = '"' || c = '<' || c = '>' || c = '|'

/-- `SHORT_TITLE_MAX_LEN` (popup.ts:968). -/
def SHORT_TITLE_MAX_LEN : Nat := 60

/-- `getBaseForTab` (popup.ts:1824-1830): sanitized short base name for
    filenames, from the tab title. -/
def getBaseForTab (title : Option Str) : Str :=
  let t0 := match title with
    | none => str "untitled"
    | some t => if t = [] then str "untitled" else t
  let s := (trimList (collapseWs (t0.map (fun c => if illegalFileChar c then '_' else c)))).take
    SHORT_TITLE_MAX_LEN
  if s = [] then str "untitled" else s

/-- `uid8` (popup.ts:1735-1741), success branch: strip the dashes from a
    `crypto.randomUUID()` result and keep the first 8 characters; the UUID
    string is the model's stand-in for the randomness. -/
def uid8FromUuid (uuid : Str) : Str := (uuid.filter (fun c => !(c = '-'))).take 8

/-- The `p-<base>_<uid>.md` summary filename (popup.ts:1841, 2064, 2125). -/
def mkSummaryFilename (base uid : Str) : Str :=
  str "p-" ++ base ++ str "_" ++ uid ++ str ".md"

/- ===================== appendUrlsToPointsSection (popup.ts:1759-1769) ===================== -/

/-- The heading `"## 要点\n"` that opens the points section. -/
def pointsHeading : Str := str "## 要点\n"

/-- The separator `"\n\n## "` that `appendUrlsToPointsSection` searches for. -/
def nextSectionSep : Str := str "\n\n## "

/-- `appendUrlsToPointsSection` (popup.ts:1759-1769): append `- url` lines at
    the end of the points section, just before the next `"\n\n## "` boundary or
    at the end of the document. -/
def appendUrlsToPointsSection (md : Str) (urls : List Str) : Str :=
  if urls.length = 0 then md
  else
    match indexOfFrom md pointsHeading 0 with
    | none => md
    | some idx =>
      let afterPoints := idx + pointsHeading.length
      let insertAt := (indexOfFrom md nextSectionSep afterPoints).getD md.length
      let lines := joinNL (urls.map (fun u => str "- " ++ u))
      md.take insertAt ++ str "\n" ++ lines ++ md.drop insertAt

/- ============== Frontmatter and placeholder notes (popup.ts:1776-1821) ============== -/

/-- Render a natural number in decimal, for frontmatter lines. -/
def natStr (n : Nat) : Str := str (toString n)

/-- Render a boolean as JS string interpolation does. -/
def boolStr (b : Bool) : Str := if b then str "true" else str "false"

/-- JSON string escaping (quote and backslash; the strings serialized by the
    program contain no control characters). -/
def jsonEscape : Str → Str
  | [] => []
  | c :: t =>
    if c = '"' then '\\' :: '"' :: jsonEscape t
    else if c = '\\' then '\\' :: '\\' :: jsonEscape t
    else c :: jsonEscape t

/-- `JSON.stringify` of a string array, as used for `extraction_warnings`. -/
def jsonStringifyArr (l : List Str) : Str :=
  str "[" ++ joinSep (str ",") (l.map (fun s => '"' :: (jsonEscape s ++ ['"']))) ++ str "]"

/-- The `（未設定）` sentinel used for an absent raw-content path. -/
def rawUnset : Str := str "（未設定）"

/-- `buildClipFrontmatter` (popup.ts:1776-1796) as the line array it joins;
    `date` stands for `todayDate()`. -/
def buildClipFrontmatterLines (url rawContentPath windowLabel : Str) (hasRaw : Bool)
    (date : Str) : List Str :=
  [str "---",
   str "source_type: " ++ detectSourceType url,
   str "pipeline: summary",
   str "raw_policy: " ++ (if hasRaw then str "stored" else str "url_only"),
   str "date: " ++ date,
   str "window: " ++ windowLabel,
   str "url: " ++ url,
   str "raw_content: " ++ rawContentPath,
   str "linked_from: tabReaper",
   str "---"]

/-- `buildClipFrontmatter` (popup.ts:1776-1796). -/
def buildClipFrontmatter (url rawContentPath windowLabel : Str) (hasRaw : Bool)
    (date : Str) : Str :=
  joinNL (buildClipFrontmatterLines url rawContentPath windowLabel hasRaw date)

/-- `buildPlaceholderSummaryMd` (popup.ts:1798-1821); `extractedUrls` is
    `tab.extractedUrls`, `rawContentPath` the optional raw-content path. -/
def buildPlaceholderSummaryMd (url : Str) (extractedUrls : List Str)
    (rawContentPath : Option Str) (windowLabel : Option Str) (date : Str) : Str :=
  let rawLine := rawContentPath.getD rawUnset
  let hasRaw := match rawContentPath with
    | none => false
    | some p => decide (p ≠ rawUnset)
  let fm := buildClipFrontmatter url rawLine (windowLabel.getD []) hasRaw date
  let pointLines :=
    if extractedUrls.length > 0 then
      str "- （要約は未取得）\n" ++ joinNL (extractedUrls.map (fun u => str "- " ++ u))
    else str "- （要約は未取得）"
  fm ++ str "\n\n## 要点\n" ++ pointLines ++
    str "\n\n## 要約\n（未取得）\n\n### tags\n（未設定）\n"

/- ============== Chat extraction statistics and frontmatter (popup.ts:1976-2005, 2082-2100) ============== -/

/-- The extraction diagnostics record embedded in a chat note's frontmatter. -/
structure ExtractionMeta where
  domTurns : Nat
  turns : Nat
  rawChars : Nat
  partialFlag : Bool
  warnings : List Str
deriving DecidableEq, Repr

/-- The chat content handed to `runChatDistillForTab`: raw extracted turns, the
    sanitized raw transcript text, and the DOM turn count. -/
structure ChatContent where
  turns : List Turn
  rawText : Str
  domTurns : Nat
deriving DecidableEq, Repr

/-- `userCount` of `runChatDistillForTab` (popup.ts:2088): deduped turns with
    role `User`. -/
def chatUserCount (chat : ChatContent) : Nat :=
  ((dedupeTurns chat.turns).filter (fun t => t.role = str "User")).length

/-- `asstCount` of `runChatDistillForTab` (popup.ts:2089): deduped turns with
    role `Assistant`. -/
def chatAsstCount (chat : ChatContent) : Nat :=
  ((dedupeTurns chat.turns).filter (fun t => t.role = str "Assistant")).length

/-- The warning computation of `runChatDistillForTab` (popup.ts:2083-2100):
    turn count, raw character count, role counts and the heuristic warnings. -/
def chatExtractionMeta (chat : ChatContent) : ExtractionMeta :=
  let turns := dedupeTurns chat.turns
  let turnsCount := turns.length
  let rawChars := chat.rawText.length
  let userCount := chatUserCount chat
  let asstCount := chatAsstCount chat
  let warnings :=
    (if turnsCount < 4 then [str "low_turn_count"] else []) ++
    (if rawChars < 80 then [str "short_raw_text"] else []) ++
    (if max userCount asstCount ≥ 3 * max (min userCount asstCount) 1 then
      [str "biased_roles"] else [])
  ⟨chat.domTurns, turnsCount, rawChars, decide (warnings.length > 0), warnings⟩

/-- `buildChatReferenceFrontmatter` (popup.ts:1976-2005) as its line array. -/
def buildChatReferenceFrontmatterLines (url rawContentPath rawChatPath windowLabel : Str)
    (hasRaw : Bool) (service : Str) (date : Str) (e : ExtractionMeta) : List Str :=
  [str "---",
   str "source_type: chat",
   str "pipeline: distill",
   str "raw_policy: " ++ (if hasRaw then str "stored" else str "url_only"),
   str "date: " ++ date,
   str "service: " ++ service,
   str "window: " ++ windowLabel,
   str "url: " ++ url,
   str "raw_content: " ++ rawContentPath,
   str "raw_chat: " ++ rawChatPath,
   str "linked_from: tabReaper",
   str "extraction_dom_turns: " ++ natStr e.domTurns,
   str "extraction_turns: " ++ natStr e.turns,
   str "extraction_raw_chars: " ++ natStr e.rawChars,
   str "extraction_partial: " ++ boolStr e.partialFlag,
   str "extraction_warnings: " ++ jsonStringifyArr e.warnings,
   str "---"]

/-- `buildChatReferenceFrontmatter` (popup.ts:1976-2005). -/
def buildChatReferenceFrontmatter (url rawContentPath rawChatPath windowLabel : Str)
    (hasRaw : Bool) (service : Str) (date : Str) (e : ExtractionMeta) : Str :=
  joinNL (buildChatReferenceFrontmatterLines url rawContentPath rawChatPath windowLabel
    hasRaw service date e)

/- ============== Chat transcript normalization (popup.ts:1406-1443, 1871-1874) ============== -/

/-- `/\r\n?/g → "\n"`: normalize CRLF and CR to LF. -/
def normalizeCR : Str → Str
  | [] => []
  | '\r' :: '\n' :: t => '\n' :: normalizeCR t
  | '\r' :: t => '\n' :: normalizeCR t
  | c :: t => c :: normalizeCR t

/-- `/\n{3,}/g → "\n\n"`: collapse runs of three or more newlines to two.
    `n` counts the pending newline run. -/
def squeezeNLAux : Str → Nat → Str
  | [], n => List.replicate (min n 2) '\n'
  | c :: t, n =>
    if c = '\n' then squeezeNLAux t (n + 1)
    else List.replicate (min n 2) '\n' ++ c :: squeezeNLAux t 0

/-- `sanitizeChatText` (popup.ts:1406-1408). -/
def sanitizeChatText (raw : Str) : Str := trimList (squeezeNLAux (normalizeCR raw) 0)

/-- The UI-chrome line patterns dropped by `cleanChatTurnText`, lower-cased. -/
def chromeLinePatterns : List Str :=
  [str "思考プロセスを表示", str "gemini の回答", str "あなたのプロンプト",
   str "gemini との会話", str "gemini", str "pro"]

/-- `cleanChatTurnText` (popup.ts:1410-1416). -/
def cleanChatTurnText (raw : Str) : Str :=
  let cleaned := ((raw.splitOn '\n').map trimRight).filter
    (fun l => decide (lowerStr (trimList l) ∉ chromeLinePatterns))
  trimList (squeezeNLAux (joinNL cleaned) 0)

/-- The user-turn marker test `/^(あなたのプロンプト|You|User)\s*$/i` applied to
    the trimmed line. -/
def isUserMarker (line : Str) : Bool :=
  decide (lowerStr (trimList line) ∈ [str "あなたのプロンプト", str "you", str "user"])

/-- The assistant-turn marker test `/^(Gemini の回答|Assistant|Claude|ChatGPT)\s*$/i`. -/
def isAsstMarker (line : Str) : Bool :=
  decide (lowerStr (trimList line) ∈
    [str "gemini の回答", str "assistant", str "claude", str "chatgpt"])

/-- The `flush` closure of `extractTurnsFromRawText`. -/
def flushTurn (role : Option Str) (buf : List Str) : List Turn :=
  let text := cleanChatTurnText (joinNL buf)
  match role with
  | some r => if text = [] then [] else [⟨r, text⟩]
  | none => []

/-- The line loop of `extractTurnsFromRawText` (popup.ts:1428-1441). -/
def extractTurnsAux : Option Str → List Str → List Str → List Turn
  | role, buf, [] => flushTurn role buf
  | role, buf, line :: rest =>
    if isUserMarker line then flushTurn role buf ++ extractTurnsAux (some (str "User")) [] rest
    else if isAsstMarker line then
      flushTurn role buf ++ extractTurnsAux (some (str "Assistant")) [] rest
    else if role.isSome then extractTurnsAux role (buf ++ [line]) rest
    else extractTurnsAux role buf rest

/-- `extractTurnsFromRawText` (popup.ts:1418-1443). -/
def extractTurnsFromRawText (raw : Str) : List Turn :=
  extractTurnsAux none [] ((sanitizeChatText raw).splitOn '\n')

/-- `formatChatTurns` (popup.ts:1871-1874). -/
def formatChatTurns (turns : List Turn) : Str :=
  if turns.length = 0 then []
  else joinSep (str "\n\n") (turns.map (fun t => str "### " ++ t.role ++ str "\n" ++ t.text))

/- ============== runChatDistillForTab (popup.ts:2073-2183) ============== -/

/-- The structured JSON the distillation AI returns (`parseChatDistillJson`,
    popup.ts:1896-1922); the external call and parse are modelled by an
    `Option ChatDistillJson` oracle, `none` standing for any exception. -/
structure ChatDistillJson where
  short_title : Str
  points : List Str
  summary : Str
  lessons : List Str
  longSummary : Str
  topic_solutions : List Str
  tags : Str
deriving DecidableEq, Repr

/-- The per-tab inputs of `runChatDistillForTab`; `date`/`nowIso` stand for the
    clock reads and `baseOnSuccess` for the external short-title helpers
    (`getShortTitleForFilename`/`generateShortTitle` of `@pipelines/url-summary`). -/
structure ChatDistillArgs where
  url : Str
  title : Option Str
  uid : Str
  rawContentPathForSummary : Option Str
  chatService : Option Str
  windowLabel : Str
  rawChatPath : Str
  date : Str
  nowIso : Str
  baseOnSuccess : Str

/-- `conversationMd` of `runChatDistillForTab` (popup.ts:2084). -/
def chatConversationMd (chat : ChatContent) : Str :=
  let turns := dedupeTurns chat.turns
  if turns.length > 0 then formatChatTurns turns
  else (sanitizeChatText chat.rawText).take 50000

/-- `runChatDistillForTab` (popup.ts:2073-2183).  Returns
    `(aiCalled, filename, content)`: the Boolean records that the `callAI`
    invocation is reached (it is reached on every control path — nothing before
    it in the `try` block can throw); on `none` (AI or JSON-parse exception) the
    `catch` branch produces the raw-transcript fallback note. -/
def runChatDistillForTab (a : ChatDistillArgs) (chat : ChatContent)
    (aiO : Option ChatDistillJson) : Bool × Str × Str :=
  let e := chatExtractionMeta chat
  let conversationMd := chatConversationMd chat
  let rawPath := a.rawContentPathForSummary.getD rawUnset
  let hasRaw := decide (rawPath ≠ rawUnset)
  let fm := buildChatReferenceFrontmatter a.url rawPath a.rawChatPath a.windowLabel hasRaw
    (a.chatService.getD (str "unknown")) a.date e
  match aiO with
  | some j =>
    let filename := mkSummaryFilename a.baseOnSuccess a.uid
    let pointsMd := if j.points.length > 0 then joinNL (j.points.map (fun p => str "- " ++ p))
      else str "- （distill未取得）"
    let lessonsMd := if j.lessons.length > 0 then joinNL (j.lessons.map (fun p => str "- " ++ p))
      else str "- （distill未取得）"
    let topicSolutionsMd := if j.topic_solutions.length > 0 then
        joinNL (j.topic_solutions.map (fun p => str "- " ++ p))
      else str "- （distill未取得）"
    let tagsMd := joinSep (str " ")
      ((((j.tags.splitOn ',').map trimList).filter (fun t => decide (t ≠ []))).map
        (fun t => str "[[" ++ t ++ str "]]"))
    let titleDisp := if trimList (a.title.getD []) = [] then str "（無題）"
      else trimList (a.title.getD [])
    let content := fm ++ str "\n\n## 要点\n" ++ pointsMd ++ str "\n\n## 要約\n" ++
      (if j.summary = [] then str "（distill未取得）" else j.summary) ++
      str "\n\n## 教訓・示唆\n" ++ lessonsMd ++ str "\n\n## 詳細要約\n" ++
      (if j.longSummary = [] then str "（distill未取得）" else j.longSummary) ++
      str "\n\n## 話題と解決法\n" ++ topicSolutionsMd ++ str "\n\n### tags\n" ++
      (if tagsMd = [] then str "（未設定）" else tagsMd) ++
      str "\n\n---\nurl: " ++ a.url ++ str "\nraw_content: " ++ rawPath ++
      str "\ncreated_at: " ++ a.nowIso ++ str "\nraw_pagetitle: " ++ titleDisp ++
      str "\nlinked_from: tabReaper\n---\n\n## 会話\n" ++ conversationMd ++ str "\n"
    (true, filename, content)
  | none =>
    (true, str "p-chat_" ++ a.uid ++ str ".md",
      fm ++ str "\n\n## 要点\n- （distill未取得）\n\n## 会話\n" ++ conversationMd ++ str "\n")

/-- The chat branch of the save loop (popup.ts:2438-2459) makes a single,
    un-looped call to `runChatDistillForTab`; only attempt index `0` of the
    oracle is ever consulted. -/
def chatStage (a : ChatDistillArgs) (chat : ChatContent)
    (aiO : Nat → Option ChatDistillJson) : Str × Str :=
  (runChatDistillForTab a chat (aiO 0)).2

/- ============== Tab injectability and extraction entry points (popup.ts:1262-1488) ============== -/

/-- `isTabUninjectable` (popup.ts:1262-1268): discarded tab, falsy URL, URL not
    starting with `http`, or the blocked Chrome-webstore pattern
    `/^https?:\/\/chrome\.google\.com\/webstore\//i`. -/
def isTabUninjectable (url : Str) (discarded : Bool) : Bool :=
  if discarded then true
  else if url = [] then true
  else if !(str "http").isPrefixOf url then true
  else if (str "http://chrome.google.com/webstore/").isPrefixOf (lowerStr url) ||
      (str "https://chrome.google.com/webstore/").isPrefixOf (lowerStr url) then true
  else false

/-- The raw result of `extractBodyTextAndLinksInPage` as seen by the popup;
    the whole `executeScript` call is an oracle, `none` standing for a thrown
    exception (injection failure, navigation, etc.). -/
structure PageData where
  bodyText : Option Str
  links : List Str
deriving DecidableEq, Repr

/-- `fetchTabBodyAndLinks` (popup.ts:1386-1404). -/
def fetchTabBodyAndLinks (url : Str) (discarded : Bool) (oracle : Option PageData) :
    Option Str × List Str :=
  if isTabUninjectable url discarded then (none, [])
  else
    match oracle with
    | none => (none, [])
    | some d =>
      let bodyText := match d.bodyText with
        | some b => if trimList b = [] then none else some (trimList b)
        | none => none
      (bodyText, d.links)

/-- The raw result of `extractWebchatInPage`. -/
structure WebchatPayload where
  service : Option Str
  rawText : Option Str
deriving DecidableEq, Repr

/-- The record `fetchChatContent` returns (its `extractionMeta.domTurns` is
    inlined as `domTurns`). -/
structure ChatFetchResult where
  service : Str
  turns : List Turn
  rawText : Str
  domTurns : Nat
deriving DecidableEq, Repr

/-- The empty chat extraction result. -/
def emptyChatFetch : ChatFetchResult := ⟨str "unknown", [], [], 0⟩

/-- `fetchChatContent` (popup.ts:1459-1488); the oracle covers the
    script-injection result, its 5-second timeout race and any exception. -/
def fetchChatContent (url : Str) (discarded : Bool) (oracle : Option WebchatPayload) :
    ChatFetchResult :=
  if isTabUninjectable url discarded then emptyChatFetch
  else
    match oracle with
    | none => emptyChatFetch
    | some d =>
      let rawText := sanitizeChatText (d.rawText.getD [])
      ⟨d.service.getD (str "unknown"), dedupeTurns (extractTurnsFromRawText rawText),
        rawText, 0⟩

/-- An image reference returned by `extractPageImagesInPage`. -/
structure ImgInfo where
  src : Str
  alt : Str
  videoUrl : Option Str
deriving DecidableEq, Repr

/-- `fetchTabImages` (popup.ts:1271-1286). -/
def fetchTabImages (url : Str) (discarded : Bool) (oracle : Option (List ImgInfo)) :
    List ImgInfo :=
  if isTabUninjectable url discarded then []
  else
    match oracle with
    | none => []
    | some l => l

/-- `getSelectedTextInTab` (popup.ts:1331-1343). -/
def getSelectedTextInTab (url : Str) (discarded : Bool) (oracle : Option Str) :
    Option Str :=
  if isTabUninjectable url discarded then none
  else
    match oracle with
    | none => none
    | some s => if s.length > 0 then some s else none

/- ============== First-pass URL merge (popup.ts:2412-2415) ============== -/

/-- The `extractedUrls` computation of the save loop's first pass: page links
    first, then body-text URLs not already among the link hrefs, wrapped as
    `[u](u)`, capped at 30. -/
def computeExtractedUrls (bodyText : Option Str) (links : List Str) : List Str :=
  let fromText := match bodyText with
    | some b => extractUrlsFromText b
    | none => []
  let hrefs := links.filterMap hrefFromObsidianLink
  let fromTextLinks := (fromText.filter (fun u => decide (u ∉ hrefs))).map
    (fun u => str "[" ++ u ++ str "](" ++ u ++ str ")")
  (links ++ fromTextLinks).take 30

/- ============== Vault batch write and day index (popup.ts:2284-2351) ============== -/

/-- `VAULT_CLIP_DIR` (popup.ts:963). -/
def VAULT_CLIP_DIR : Str := str "library/clip"

/-- `VAULT_REFERENCE_DIR` (popup.ts:964). -/
def VAULT_REFERENCE_DIR : Str := str "library/reference"

/-- The fields of `TabInfo` used by the vault write and day-index code. -/
structure MTab where
  id : Nat
  title : Option Str
  url : Str
  summaryFilename : Option Str
  summaryContent : Option Str
  summaryVaultDir : Option Str
  chatService : Option Str
  rawFilename : Option Str
  rawContent : Option Str
  chatRawFilename : Option Str
  chatRawContent : Option Str
deriving DecidableEq, Repr

/-- A window group as passed to the vault writers. -/
structure MWindow where
  windowIndex : Nat
  windowLabel : Str
  tabs : List MTab
deriving DecidableEq, Repr

/-- JS truthiness of an optional string: present and non-empty. -/
def truthyOpt (o : Option Str) : Bool :=
  match o with
  | some s => decide (s ≠ [])
  | none => false

/-- The filter `t.summaryFilename && t.summaryContent` of
    `saveTabSummariesToVault` (popup.ts:2289). -/
def summaryEligible (t : MTab) : Bool :=
  truthyOpt t.summaryFilename && truthyOpt t.summaryContent

/-- The vault path `dir + "/" + filename` written for a tab's summary note
    (popup.ts:2291-2293). -/
def summaryPathOf (t : MTab) : Str :=
  (t.summaryVaultDir.getD
    (if t.chatService.isSome then VAULT_REFERENCE_DIR else VAULT_CLIP_DIR)) ++
    str "/" ++ t.summaryFilename.getD []

/-- The write loop of `saveTabSummariesToVault` (popup.ts:2290-2298): each tab's
    `putVaultFile` is attempted inside its own `try`, a failure is recorded in
    `failedSummaryTabIds` and the loop continues.  `writeOk` is the vault-write
    outcome per path; the first component lists every attempted path in order,
    the second the failed tab ids. -/
def saveSummariesLoop (writeOk : Str → Bool) : List MTab → List Str × List Nat
  | [] => ([], [])
  | t :: rest =>
    let p := summaryPathOf t
    let (att, failed) := saveSummariesLoop writeOk rest
    (p :: att, if writeOk p then failed else t.id :: failed)

/-- `saveTabSummariesToVault` (popup.ts:2284-2300). -/
def saveTabSummariesToVault (writeOk : Str → Bool) (byWindow : List MWindow) :
    List Str × List Nat :=
  saveSummariesLoop writeOk (((byWindow.map MWindow.tabs).flatten).filter summaryEligible)

/-- `VAULT_RAW_DIR` (popup.ts:965). -/
def VAULT_RAW_DIR : Str := str "memory/raw_content"

/-- The filter `t.rawFilename && t.rawContent` of `saveRawToVault`
    (popup.ts:2306). -/
def rawEligible (t : MTab) : Bool :=
  truthyOpt t.rawFilename && truthyOpt t.rawContent

/-- The filter `t.chatRawFilename && t.chatRawContent` of `saveRawToVault`
    (popup.ts:2310). -/
def chatRawEligible (t : MTab) : Bool :=
  truthyOpt t.chatRawFilename && truthyOpt t.chatRawContent

/-- The vault path `VAULT_RAW_DIR + "/" + rawFilename` written for a tab's raw
    body text (popup.ts:2308). -/
def rawPathOf (t : MTab) : Str := VAULT_RAW_DIR ++ str "/" ++ t.rawFilename.getD []

/-- The vault path `VAULT_RAW_DIR + "/" + chatRawFilename` written for a tab's
    raw chat transcript (popup.ts:2312). -/
def chatRawPathOf (t : MTab) : Str := VAULT_RAW_DIR ++ str "/" ++ t.chatRawFilename.getD []

/-- A write loop of `saveRawToVault` (popup.ts:2307-2309 and 2311-2313): the
    `putVaultFile` awaits have NO surrounding `try`, so the first failing write
    throws out of the loop.  Returns the attempted paths in order and whether
    the loop threw. -/
def rawWriteLoop (writeOk : Str → Bool) : List Str → List Str × Bool
  | [] => ([], false)
  | p :: rest =>
    if writeOk p then
      let (att, thr) := rawWriteLoop writeOk rest
      (p :: att, thr)
    else ([p], true)

/-- The two sequential uncaught write loops of `saveRawToVault` over their
    path lists: if the first loop throws, the second never runs; either way the
    exception propagates (second component). -/
def rawPhase (writeOk : Str → Bool) (paths1 paths2 : List Str) : List Str × Bool :=
  let r1 := rawWriteLoop writeOk paths1
  if r1.2 then (r1.1, true)
  else
    let r2 := rawWriteLoop writeOk paths2
    (r1.1 ++ r2.1, r2.2)

/-- `saveRawToVault` (popup.ts:2302-2314): write every eligible tab's raw body
    file, then every eligible tab's raw chat file; an exception from either
    loop propagates to the caller. -/
def saveRawToVault (writeOk : Str → Bool) (byWindow : List MWindow) : List Str × Bool :=
  rawPhase writeOk
    ((((byWindow.map MWindow.tabs).flatten).filter rawEligible).map rawPathOf)
    ((((byWindow.map MWindow.tabs).flatten).filter chatRawEligible).map chatRawPathOf)

/-- All raw-content paths `saveRawToVault` writes, in order. -/
def rawPathsAll (byWindow : List MWindow) : List Str :=
  ((((byWindow.map MWindow.tabs).flatten).filter rawEligible).map rawPathOf) ++
  ((((byWindow.map MWindow.tabs).flatten).filter chatRawEligible).map chatRawPathOf)

/-- `f.replace(/\.md$/i, "")` (popup.ts:2335). -/
def stripMdExt (f : Str) : Str :=
  if decide (f.length ≥ 3) && lowerStr (f.drop (f.length - 3)) = str ".md" then
    f.take (f.length - 3)
  else f

/-- The per-tab day-index link (popup.ts:2333-2336): an internal `[[note]]` link
    when the note write succeeded and a filename exists, else a raw
    `[title](url)` reference. -/
def dayIndexLink (failed : List Nat) (t : MTab) : Str :=
  if decide (t.id ∉ failed) && truthyOpt t.summaryFilename then
    str "[[" ++ stripMdExt (t.summaryFilename.getD []) ++ str "]]"
  else
    str "[" ++ (match t.title with
      | some s => if s = [] then str "（無題）" else s
      | none => str "（無題）") ++ str "](" ++ t.url ++ str ")"

/-- The line array of `buildDayIndexEntry` (popup.ts:2329-2339); `ymd` stands
    for the formatted date. -/
def buildDayIndexLines (byWindow : List MWindow) (ymd : Str) (failed : List Nat) :
    List Str :=
  (str "[[" ++ ymd ++ str "]]") ::
    (byWindow.map (fun w =>
      (str "- " ++ w.windowLabel) :: w.tabs.map (fun t => str "\t- " ++ dayIndexLink failed t))).flatten

/-- `buildDayIndexEntry` (popup.ts:2318-2341). -/
def buildDayIndexEntry (byWindow : List MWindow) (ymd : Str) (failed : List Nat) : Str :=
  joinNL (buildDayIndexLines byWindow ymd failed) ++ str "\n"

/-- What the save phase of `saveSelectedTabs` actually executed. -/
structure SavePhaseResult where
  rawAttempts : List Str
  summaryAttempts : List Str
  failedSummaryTabIds : List Nat
  dayIndexAppended : Bool
  errorShown : Bool
deriving DecidableEq, Repr

/-- The save phase of `saveSelectedTabs` (popup.ts:2523-2533):
    `try { saveRawToVault; saveTabSummariesToVault; appendDayIndex } catch`.
    An exception from `saveRawToVault` (a raw write failure) reaches this catch
    before any summary write or the day-index append has run; `appendOk` is the
    outcome of the `appendVaultFile` call inside `appendDayIndex`. -/
def savePhase (writeOk : Str → Bool) (appendOk : Bool) (byWindow : List MWindow) :
    SavePhaseResult :=
  let r := saveRawToVault writeOk byWindow
  if r.2 then ⟨r.1, [], [], false, true⟩
  else
    let s := saveTabSummariesToVault writeOk byWindow
    if appendOk then ⟨r.1, s.1, s.2, true, false⟩
    else ⟨r.1, s.1, s.2, false, true⟩

/- ============== runUrlSummaryForTab and its retry loop (popup.ts:2022-2070, 2461-2489) ============== -/

/-- The per-tab inputs of `runUrlSummaryForTab`; `date` stands for `todayDate()`
    and `baseOnSuccess` for the external short-title helpers applied to the AI
    response. -/
structure UrlSummaryArgs where
  url : Str
  title : Option Str
  uid : Str
  rawContentPathForSummary : Option Str
  extractedUrls : List Str
  windowLabel : Str
  date : Str
  baseOnSuccess : Str

/-- The post-processing of `fetchTwitterThreadText` (popup.ts:2008-2020): its
    oracle result trimmed, `none` for an absent or blank thread (the function
    catches internally, so it never throws). -/
def twitterThreadResult (twO : Option Str) : Option Str :=
  match twO with
  | some s => if trimList s = [] then none else some (trimList s)
  | none => none

/-- The `text` acquisition step of `runUrlSummaryForTab` (popup.ts:2031-2037):
    for Twitter URLs prefer the non-empty thread text, otherwise fall back to
    the Jina fetch (whose failure throws). -/
def summaryFetchText (a : UrlSummaryArgs) (twO jinaO : Option Str) : Option Str :=
  if twitterHostTest a.url then
    match twitterThreadResult twO with
    | some t => if t.length > 0 then some t else jinaO
    | none => jinaO
  else jinaO

/-- `runUrlSummaryForTab` (popup.ts:2022-2070).  `twO` is the
    `fetchTwitterThreadText` oracle, `jinaO` the `fetchViaJina` result (`none`
    = the fetch threw — this is OUTSIDE the `try`, so the function itself
    throws: first component `none`), `aiBody` the external summarize-and-render
    result (`generateSummaryJson`/`parseSummaryJson`/`buildSummaryMdFromJson`),
    whose failure is caught INSIDE the function and answered with a placeholder
    note.  The Boolean records whether the AI call was reached. -/
def runUrlSummaryForTab (a : UrlSummaryArgs) (twO jinaO : Option Str)
    (aiBody : Option Str) : Option (Str × Str) × Bool :=
  match summaryFetchText a twO jinaO with
  | none => (none, false)
  | some _ =>
    let rawPath := a.rawContentPathForSummary.getD rawUnset
    let hasRaw := decide (rawPath ≠ rawUnset)
    let fm := buildClipFrontmatter a.url rawPath a.windowLabel hasRaw a.date
    match aiBody with
    | some body =>
      let content := appendUrlsToPointsSection (fm ++ str "\n\n" ++ body) a.extractedUrls
      (some (mkSummaryFilename a.baseOnSuccess a.uid, content), true)
    | none =>
      (some (str "p-untitled_" ++ a.uid ++ str ".md",
        buildPlaceholderSummaryMd a.url a.extractedUrls a.rawContentPathForSummary
          (some a.windowLabel) a.date), true)

/-- The retry loop body of the save pipeline (popup.ts:2461-2488) over the given
    attempt indices: stop on the first attempt whose `runUrlSummaryForTab`
    returns (rather than throws).  Returns the note if one was produced, the
    number of `runUrlSummaryForTab` calls and the number of AI calls. -/
def runAttempts (a : UrlSummaryArgs) (tw jina ai : Nat → Option Str) :
    List Nat → Option (Str × Str) × Nat × Nat
  | [] => (none, 0, 0)
  | k :: rest =>
    match runUrlSummaryForTab a (tw k) (jina k) (ai k) with
    | (some note, aiC) => (some note, 1, if aiC then 1 else 0)
    | (none, aiC) =>
      let (r, c, n) := runAttempts a tw jina ai rest
      (r, c + 1, n + (if aiC then 1 else 0))

/-- The full non-chat summarization stage for one tab (popup.ts:2461-2488,
    `maxAttempts = 3`): up to three attempts; if the last attempt also throws,
    the `catch` assigns the `p-untitled` placeholder note. -/
def urlSummaryStage (a : UrlSummaryArgs) (tw jina ai : Nat → Option Str) :
    (Str × Str) × Nat × Nat :=
  match runAttempts a tw jina ai [0, 1, 2] with
  | (some note, c, n) => (note, c, n)
  | (none, c, n) =>
    ((str "p-untitled_" ++ a.uid ++ str ".md",
      buildPlaceholderSummaryMd a.url a.extractedUrls a.rawContentPathForSummary
        (some a.windowLabel) a.date), c, n)

/- ===================== General lemmas for the claim theorems ===================== -/

theorem append_suffix_eq (a b s1 s2 : Str) (h : a ++ s1 = b ++ s2)
    (hl : s1.length = s2.length) : s1 = s2 := by
  have hr := congrArg List.reverse h
  rw [List.reverse_append, List.reverse_append] at hr
  have h1 : (s1.reverse ++ a.reverse).take s1.reverse.length = s1.reverse :=
    List.take_left _ _
  have h2 : (s2.reverse ++ b.reverse).take s2.reverse.length = s2.reverse :=
    List.take_left _ _
  have hlen : s1.reverse.length = s2.reverse.length := by simp [hl]
  rw [hr, hlen, h2] at h1
  exact List.reverse_injective h1.symm

theorem indexOfFrom_eq_some_of_first (s pat : Str) (hne : pat ≠ []) (start i : Nat)
    (h : start ≤ i) (hocc : occursAt pat s i = true)
    (hmin : ∀ j, start ≤ j → j < i → occursAt pat s j = false) :
    indexOfFrom s pat start = some i := by
  cases hidx : indexOfFrom s pat start with
  | none =>
    have := indexOfFrom_none s pat hne start hidx i h
    rw [this] at hocc
    exact absurd hocc (by simp)
  | some r =>
    obtain ⟨hr1, hr2, hr3⟩ := indexOfFrom_some s pat start r hidx
    congr 1
    by_contra hne2
    rcases Nat.lt_or_ge r i with hlt | hge
    · have := hmin r hr1 hlt
      rw [this] at hr2
      exact absurd hr2 (by simp)
    · have hlt2 : i < r := by omega
      have := hr3 i h hlt2
      rw [this] at hocc
      exact absurd hocc (by simp)

theorem saveSummariesLoop_spec (writeOk : Str → Bool) (l : List MTab) :
    (saveSummariesLoop writeOk l).1 = l.map summaryPathOf ∧
    (saveSummariesLoop writeOk l).2 =
      (l.filter (fun t => !(writeOk (summaryPathOf t)))).map MTab.id := by
  induction l with
  | nil => exact ⟨rfl, rfl⟩
  | cons t rest ih =>
    simp only [saveSummariesLoop, List.map_cons, List.filter_cons]
    by_cases hw : writeOk (summaryPathOf t) = true
    · simp [hw, ih.1, ih.2]
    · have hw2 : writeOk (summaryPathOf t) = false := by
        cases hwv : writeOk (summaryPathOf t)
        · rfl
        · exact absurd hwv hw
      simp [hw2, ih.1, ih.2]

theorem pairKey_congr (u v : Turn) (h : pairKey u = pairKey v) : keyOf u = keyOf v := by
  unfold pairKey at h
  have h1 : u.role = v.role := congrArg Prod.fst h
  have h2 : wsNorm (trimList u.text) = wsNorm (trimList v.text) := congrArg Prod.snd h
  unfold keyOf
  rw [h1, h2]

/- ===================== Claim theorems ===================== -/

/-- C10: For every list of chat turns, `dedupeTurns` returns a list in which
    every turn has non-empty trimmed text; the keys
    `(role, whitespace-normalized text)` are pairwise distinct; the output is a
    subsequence of the trimmed input (first occurrences, in order) and no
    non-empty turn's key is lost; consequently `dedupeTurns` is idempotent:
    `dedupeTurns (dedupeTurns ts) = dedupeTurns ts`.  (The source's key is the
    string `role + ":" + normalizedText`; for the roles this program produces —
    `User`/`Assistant`, colon-free — it coincides with the pair.) -/
theorem claim10_dedupe (ts : List Turn) :
    (∀ u ∈ dedupeTurns ts, u.text = trimList u.text ∧ u.text ≠ []) ∧
    List.Pairwise (fun u v => pairKey u ≠ pairKey v) (dedupeTurns ts) ∧
    List.Sublist (dedupeTurns ts) (ts.map trimTurn) ∧
    (∀ t ∈ ts, trimList t.text ≠ [] → ∃ u ∈ dedupeTurns ts, keyOf u = keyOf t) ∧
    dedupeTurns (dedupeTurns ts) = dedupeTurns ts := by
  refine ⟨?_, ?_, ?_, ?_, dedupeTurns_idem ts⟩
  · intro u hu
    have := dedupeTurnsAux_invariant ts [] u hu
    exact ⟨this.1, this.2.1⟩
  · have hp := dedupeTurnsAux_pairwise ts []
    exact hp.imp (fun hk hpk => hk (pairKey_congr _ _ hpk))
  · exact dedupeTurnsAux_sublist ts []
  · intro t ht htne
    rcases dedupeTurnsAux_key_present ts [] t ht htne with hin | h
    · cases hin
    · exact h

/-- C10 witness: concrete application of `claim10_dedupe`, discharging the
    inner non-empty-trim hypothesis on a concrete turn list. -/
theorem claim10_witness :
    ∃ u ∈ dedupeTurns [⟨str "User", str " a b "⟩, ⟨str "User", str "a  b"⟩,
      ⟨str "Assistant", str "  "⟩],
      keyOf u = keyOf ⟨str "User", str "a  b"⟩ :=
  (claim10_dedupe [⟨str "User", str " a b "⟩, ⟨str "User", str "a  b"⟩,
    ⟨str "Assistant", str "  "⟩]).2.2.2.1 ⟨str "User", str "a  b"⟩ (by decide) (by decide)

/-- The lowercase hexadecimal digits produced by `crypto.randomUUID()`. -/
def isHexDigitChar (c : Char) : Bool :=
  ('0' ≤ c && c ≤ '9') || ('a' ≤ c && c ≤ 'f')

/-- C9: For the same tab processed in two save runs with fresh random UUID
    draws, the generated note filenames differ: `uid8` keeps 8 hex characters
    of the UUID, and `p-<base>_<uid>.md` filenames with distinct 8-character
    uids are distinct, for any bases (in particular identical titles). -/
theorem claim9_filename_uniqueness (q1 q2 b1 b2 : Str)
    (hq1 : 8 ≤ (q1.filter (fun c => !(c = '-'))).length)
    (hq2 : 8 ≤ (q2.filter (fun c => !(c = '-'))).length)
    (hx1 : ∀ c ∈ q1, isHexDigitChar c = true ∨ c = '-')
    (hne : uid8FromUuid q1 ≠ uid8FromUuid q2) :
    (uid8FromUuid q1).length = 8 ∧
    (∀ c ∈ uid8FromUuid q1, isHexDigitChar c = true) ∧
    mkSummaryFilename b1 (uid8FromUuid q1) ≠ mkSummaryFilename b2 (uid8FromUuid q2) := by
  have hlen1 : (uid8FromUuid q1).length = 8 := by
    unfold uid8FromUuid
    rw [List.length_take]
    omega
  have hlen2 : (uid8FromUuid q2).length = 8 := by
    unfold uid8FromUuid
    rw [List.length_take]
    omega
  refine ⟨hlen1, ?_, ?_⟩
  · intro c hc
    have hmem : c ∈ q1.filter (fun c => !(c = '-')) := List.mem_of_mem_take hc
    have := List.mem_filter.mp hmem
    rcases hx1 c this.1 with h | h
    · exact h
    · exfalso
      have := this.2
      simp [h] at this
  · intro heq
    unfold mkSummaryFilename at heq
    have hassoc : ∀ (b u : Str), str "p-" ++ b ++ str "_" ++ u ++ str ".md" =
        (str "p-" ++ b ++ str "_") ++ (u ++ str ".md") := by
      intro b u
      simp [List.append_assoc]
    rw [hassoc b1 _, hassoc b2 _] at heq
    have hsuf : uid8FromUuid q1 ++ str ".md" = uid8FromUuid q2 ++ str ".md" := by
      apply append_suffix_eq _ _ _ _ heq
      simp [hlen1, hlen2]
    have := List.append_cancel_right hsuf
    exact hne this

/-- C9 witness: two concrete UUID draws yield distinct filenames for the same
    title base. -/
theorem claim9_witness :
    mkSummaryFilename (str "Example") (uid8FromUuid (str "0a3f2b44-1111-2222-3333-444455556666")) ≠
    mkSummaryFilename (str "Example") (uid8FromUuid (str "9c1d2e3f-1111-2222-3333-444455556666")) :=
  (claim9_filename_uniqueness (str "0a3f2b44-1111-2222-3333-444455556666")
    (str "9c1d2e3f-1111-2222-3333-444455556666") (str "Example") (str "Example")
    (by decide) (by decide) (by decide) (by decide)).2.2

/-- C7: For every tab that is discarded, has an empty URL, a URL not starting
    with `http` (every non-http(s) scheme: `chrome:`, `about:`, `file:`, …), or
    a URL matching the blocked webstore pattern, each extraction function —
    body/link extraction, chat extraction, image extraction, selection read —
    returns its empty/null result, for every outcome of the injected script
    (including a thrown exception, `oracle = none`): no exception escapes. -/
theorem claim7_uninjectable_empty (url : Str) (discarded : Bool)
    (o1 : Option PageData) (o2 : Option WebchatPayload)
    (o3 : Option (List ImgInfo)) (o4 : Option Str)
    (h : discarded = true ∨ url = [] ∨ (str "http").isPrefixOf url = false ∨
      (str "http://chrome.google.com/webstore/").isPrefixOf (lowerStr url) = true ∨
      (str "https://chrome.google.com/webstore/").isPrefixOf (lowerStr url) = true) :
    fetchTabBodyAndLinks url discarded o1 = (none, []) ∧
    fetchChatContent url discarded o2 = emptyChatFetch ∧
    fetchTabImages url discarded o3 = [] ∧
    getSelectedTextInTab url discarded o4 = none := by
  have huninj : isTabUninjectable url discarded = true := by
    unfold isTabUninjectable
    rcases h with h | h | h | h | h <;> simp [h]
  refine ⟨?_, ?_, ?_, ?_⟩
  · simp [fetchTabBodyAndLinks, huninj]
  · simp [fetchChatContent, huninj]
  · simp [fetchTabImages, huninj]
  · simp [getSelectedTextInTab, huninj]

/-- C7 witness: a `chrome://` internal page with live oracles still yields the
    empty results. -/
theorem claim7_witness :
    fetchTabBodyAndLinks (str "chrome://settings") false
      (some ⟨some (str "body"), [str "[l](https://a.b)"]⟩) = (none, []) ∧
    fetchChatContent (str "chrome://settings") false
      (some ⟨some (str "chatgpt"), some (str "User\nhi")⟩) = emptyChatFetch ∧
    fetchTabImages (str "chrome://settings") false
      (some [⟨str "https://img", str "alt", none⟩]) = [] ∧
    getSelectedTextInTab (str "chrome://settings") false (some (str "sel")) = none :=
  claim7_uninjectable_empty (str "chrome://settings") false _ _ _ _
    (Or.inr (Or.inr (Or.inl (by decide))))

/-- C6: A placeholder note built with no stored raw-content path declares
    `raw_policy: url_only`, and one built with a raw-content path other than
    the unset sentinel `（未設定）` declares `raw_policy: stored`; at the
    frontmatter-builder level, `hasRaw = false` yields the `url_only` line and
    `hasRaw = true` the `stored` line. -/
theorem claim6_raw_policy (url windowLabel date : Str) (extractedUrls : List Str) :
    containsSubstr (buildPlaceholderSummaryMd url extractedUrls none (some windowLabel) date)
      (str "raw_policy: url_only") = true ∧
    (∀ p : Str, p ≠ rawUnset →
      containsSubstr (buildPlaceholderSummaryMd url extractedUrls (some p) (some windowLabel) date)
        (str "raw_policy: stored") = true) ∧
    (∀ u rp wl d : Str,
      (str "raw_policy: url_only") ∈ buildClipFrontmatterLines u rp wl false d ∧
      (str "raw_policy: stored") ∈ buildClipFrontmatterLines u rp wl true d) := by
  have hsplit1 : str "raw_policy: url_only" = str "raw_policy: " ++ str "url_only" := by decide
  have hsplit2 : str "raw_policy: stored" = str "raw_policy: " ++ str "stored" := by decide
  refine ⟨?_, ?_, ?_⟩
  · have hmem : (str "raw_policy: url_only") ∈
        buildClipFrontmatterLines url rawUnset windowLabel false date := by
      rw [hsplit1]
      simp [buildClipFrontmatterLines]
    have hshape : buildPlaceholderSummaryMd url extractedUrls none (some windowLabel) date =
        joinNL (buildClipFrontmatterLines url rawUnset windowLabel false date) ++
        (str "\n\n## 要点\n" ++
          (if extractedUrls.length > 0 then
            str "- （要約は未取得）\n" ++ joinNL (extractedUrls.map (fun u => str "- " ++ u))
          else str "- （要約は未取得）") ++
          str "\n\n## 要約\n（未取得）\n\n### tags\n（未設定）\n") := by
      simp [buildPlaceholderSummaryMd, buildClipFrontmatter, List.append_assoc]
    rw [hshape]
    exact containsSubstr_joinNL_append _ _ _ hmem (by decide)
  · intro p hp
    have hdec : decide (p ≠ rawUnset) = true := decide_eq_true hp
    have hmem : (str "raw_policy: stored") ∈
        buildClipFrontmatterLines url p windowLabel true date := by
      rw [hsplit2]
      simp [buildClipFrontmatterLines]
    have hshape : buildPlaceholderSummaryMd url extractedUrls (some p) (some windowLabel) date =
        joinNL (buildClipFrontmatterLines url p windowLabel true date) ++
        (str "\n\n## 要点\n" ++
          (if extractedUrls.length > 0 then
            str "- （要約は未取得）\n" ++ joinNL (extractedUrls.map (fun u => str "- " ++ u))
          else str "- （要約は未取得）") ++
          str "\n\n## 要約\n（未取得）\n\n### tags\n（未設定）\n") := by
      simp [buildPlaceholderSummaryMd, buildClipFrontmatter, List.append_assoc, hdec]
    rw [hshape]
    exact containsSubstr_joinNL_append _ _ _ hmem (by decide)
  · intro u rp wl d
    constructor
    · rw [hsplit1]; simp [buildClipFrontmatterLines]
    · rw [hsplit2]; simp [buildClipFrontmatterLines]

/-- C6 witness: a concrete placeholder note built with a real raw-content path
    declares `raw_policy: stored`. -/
theorem claim6_witness :
    containsSubstr (buildPlaceholderSummaryMd (str "https://e.x/") []
      (some (str "memory/raw_content/p-x_00000000.txt")) (some (str "w"))
      (str "2026-10-11")) (str "raw_policy: stored") = true :=
  (claim6_raw_policy (str "https://e.x/") (str "w") (str "2026-10-11") []).2.1
    (str "memory/raw_content/p-x_00000000.txt") (by decide)

theorem rawWriteLoop_ok (writeOk : Str → Bool) :
    ∀ paths : List Str, (∀ p ∈ paths, writeOk p = true) →
      rawWriteLoop writeOk paths = (paths, false) := by
  intro paths
  induction paths with
  | nil => intro _; rfl
  | cons p rest ih =>
    intro h
    have hp := h p (List.mem_cons_self _ _)
    have hrest := ih (fun q hq => h q (List.mem_cons_of_mem _ hq))
    simp [rawWriteLoop, hp, hrest]

theorem rawWriteLoop_abort (writeOk : Str → Bool) :
    ∀ (pre : List Str) (p : Str) (post : List Str),
      (∀ q ∈ pre, writeOk q = true) → writeOk p = false →
      rawWriteLoop writeOk (pre ++ p :: post) = (pre ++ [p], true) := by
  intro pre
  induction pre with
  | nil =>
    intro p post _ hp
    simp [rawWriteLoop, hp]
  | cons q pre2 ih =>
    intro p post hq hp
    have h1 := hq q (List.mem_cons_self _ _)
    have h2 := ih p post (fun r hr => hq r (List.mem_cons_of_mem _ hr)) hp
    simp [rawWriteLoop, h1, h2]

theorem rawPhase_ok (writeOk : Str → Bool) (paths1 paths2 : List Str)
    (h : ∀ p ∈ paths1 ++ paths2, writeOk p = true) :
    rawPhase writeOk paths1 paths2 = (paths1 ++ paths2, false) := by
  have h1 : ∀ p ∈ paths1, writeOk p = true :=
    fun p hp => h p (List.mem_append.mpr (Or.inl hp))
  have h2 : ∀ p ∈ paths2, writeOk p = true :=
    fun p hp => h p (List.mem_append.mpr (Or.inr hp))
  simp [rawPhase, rawWriteLoop_ok writeOk paths1 h1, rawWriteLoop_ok writeOk paths2 h2]

theorem rawPhase_abort (writeOk : Str → Bool) (paths1 paths2 pre : List Str) (p : Str)
    (post : List Str) (hdec : paths1 ++ paths2 = pre ++ p :: post)
    (hpre : ∀ q ∈ pre, writeOk q = true) (hp : writeOk p = false) :
    rawPhase writeOk paths1 paths2 = (pre ++ [p], true) := by
  rcases List.append_eq_append_iff.mp hdec with ⟨e, he1, he2⟩ | ⟨e, he1, he2⟩
  · -- pre = paths1 ++ e and paths2 = e ++ p :: post: the failure is in the
    -- second loop; the first loop succeeds completely.
    have hok1 : ∀ q ∈ paths1, writeOk q = true :=
      fun q hq => hpre q (by rw [he1]; exact List.mem_append.mpr (Or.inl hq))
    have hoke : ∀ q ∈ e, writeOk q = true :=
      fun q hq => hpre q (by rw [he1]; exact List.mem_append.mpr (Or.inr hq))
    rw [rawPhase, rawWriteLoop_ok writeOk paths1 hok1, he2,
      rawWriteLoop_abort writeOk e p post hoke hp]
    simp [he1, List.append_assoc]
  · -- paths1 = pre ++ e and p :: post = e ++ paths2: the failure is in the
    -- first loop or at the head of the second.
    cases e with
    | nil =>
      have hpaths1 : paths1 = pre := by simpa using he1
      have hpaths2 : paths2 = p :: post := by simpa using he2.symm
      have hok1 : ∀ q ∈ paths1, writeOk q = true := fun q hq => hpre q (hpaths1 ▸ hq)
      rw [rawPhase, rawWriteLoop_ok writeOk paths1 hok1, hpaths2]
      simp [rawWriteLoop, hp, hpaths1]
    | cons p2 e2 =>
      have h3 : p :: post = p2 :: (e2 ++ paths2) := by simpa using he2
      have h4 : p = p2 := by injection h3
      have hpaths1 : paths1 = pre ++ p :: e2 := by rw [he1, ← h4]
      rw [rawPhase, hpaths1, rawWriteLoop_abort writeOk pre p e2 hpre hp]
      simp

theorem saveRawToVault_eq_rawPhase (writeOk : Str → Bool) (byWindow : List MWindow) :
    saveRawToVault writeOk byWindow = rawPhase writeOk
      ((((byWindow.map MWindow.tabs).flatten).filter rawEligible).map rawPathOf)
      ((((byWindow.map MWindow.tabs).flatten).filter chatRawEligible).map chatRawPathOf) :=
  rfl

/-- C2 counterexample: a two-tab batch in which only the FIRST tab's raw-content
    file fails to write (every other path would succeed).  `saveRawToVault` has
    no per-file catch, so the exception reaches the outer catch of
    `saveSelectedTabs`: the second tab's raw write, BOTH tabs' note writes and
    the day-index append are all skipped and the error status is shown —
    falsifying "the remaining tabs' files are still written, the batch is never
    aborted by a single tab's save failure". -/
theorem claim2_counterexample :
    savePhase (fun p => decide (p ≠ str "memory/raw_content/r1.txt")) true
      [⟨1, str "w", [⟨1, some (str "T1"), str "https://a/1", some (str "f1.md"),
        some (str "c1"), none, none, some (str "r1.txt"), some (str "x"), none, none⟩,
        ⟨2, some (str "T2"), str "https://a/2", some (str "f2.md"), some (str "c2"),
        none, none, some (str "r2.txt"), some (str "y"), none, none⟩]⟩] =
      ⟨[str "memory/raw_content/r1.txt"], [], [], false, true⟩ ∧
    rawEligible ⟨2, some (str "T2"), str "https://a/2", some (str "f2.md"),
      some (str "c2"), none, none, some (str "r2.txt"), some (str "y"), none, none⟩ = true ∧
    summaryEligible ⟨1, some (str "T1"), str "https://a/1", some (str "f1.md"),
      some (str "c1"), none, none, some (str "r1.txt"), some (str "x"), none, none⟩ = true ∧
    summaryEligible ⟨2, some (str "T2"), str "https://a/2", some (str "f2.md"),
      some (str "c2"), none, none, some (str "r2.txt"), some (str "y"), none, none⟩ = true ∧
    (fun p => decide (p ≠ str "memory/raw_content/r1.txt"))
      (rawPathOf ⟨2, some (str "T2"), str "https://a/2", some (str "f2.md"),
        some (str "c2"), none, none, some (str "r2.txt"), some (str "y"), none, none⟩) = true ∧
    (fun p => decide (p ≠ str "memory/raw_content/r1.txt"))
      (summaryPathOf ⟨1, some (str "T1"), str "https://a/1", some (str "f1.md"),
        some (str "c1"), none, none, some (str "r1.txt"), some (str "x"), none, none⟩) = true ∧
    (fun p => decide (p ≠ str "memory/raw_content/r1.txt"))
      (summaryPathOf ⟨2, some (str "T2"), str "https://a/2", some (str "f2.md"),
        some (str "c2"), none, none, some (str "r2.txt"), some (str "y"), none, none⟩) = true := by
  decide

/-- C2 (amended): per-file catch holds for the NOTE writes only.  Within
    `saveTabSummariesToVault` every eligible tab's note gets its own write
    attempt regardless of earlier failures, the failed-id set is exactly the
    tabs whose note write failed, every tab's day-index line is part of the
    entry, and a failed note write yields the raw `[title](url)` reference
    while a successful one yields the `[[note]]` vault link.  The raw-content
    writes of `saveRawToVault`, however, are NOT caught per file: when every
    raw path succeeds the save phase runs in full, but a single failing raw
    write aborts the phase at that file — no note write is attempted, no
    failure is recorded, the day index is not appended, and the error status is
    shown.  (`hids`: browser tab ids are unique.) -/
theorem claim2_amended (writeOk : Str → Bool) (byWindow : List MWindow) (ymd : Str)
    (appendOk : Bool)
    (hids : (((byWindow.map MWindow.tabs).flatten).map MTab.id).Nodup) :
    (saveTabSummariesToVault writeOk byWindow).1 =
      (((byWindow.map MWindow.tabs).flatten).filter summaryEligible).map summaryPathOf ∧
    (saveTabSummariesToVault writeOk byWindow).2 =
      ((((byWindow.map MWindow.tabs).flatten).filter summaryEligible).filter
        (fun t => !(writeOk (summaryPathOf t)))).map MTab.id ∧
    (∀ w ∈ byWindow, ∀ t ∈ w.tabs,
      (str "\t- " ++ dayIndexLink (saveTabSummariesToVault writeOk byWindow).2 t) ∈
        buildDayIndexLines byWindow ymd (saveTabSummariesToVault writeOk byWindow).2) ∧
    (∀ w ∈ byWindow, ∀ t ∈ w.tabs, summaryEligible t = true →
      (writeOk (summaryPathOf t) = false →
        dayIndexLink (saveTabSummariesToVault writeOk byWindow).2 t =
          str "[" ++ (match t.title with
            | some s => if s = [] then str "（無題）" else s
            | none => str "（無題）") ++ str "](" ++ t.url ++ str ")") ∧
      (writeOk (summaryPathOf t) = true →
        dayIndexLink (saveTabSummariesToVault writeOk byWindow).2 t =
          str "[[" ++ stripMdExt (t.summaryFilename.getD []) ++ str "]]")) ∧
    ((∀ p ∈ rawPathsAll byWindow, writeOk p = true) →
      savePhase writeOk appendOk byWindow =
        ⟨rawPathsAll byWindow,
          (((byWindow.map MWindow.tabs).flatten).filter summaryEligible).map summaryPathOf,
          ((((byWindow.map MWindow.tabs).flatten).filter summaryEligible).filter
            (fun t => !(writeOk (summaryPathOf t)))).map MTab.id,
          appendOk, !appendOk⟩) ∧
    (∀ (pre : List Str) (p : Str) (post : List Str),
      rawPathsAll byWindow = pre ++ p :: post →
      (∀ q ∈ pre, writeOk q = true) → writeOk p = false →
      savePhase writeOk appendOk byWindow = ⟨pre ++ [p], [], [], false, true⟩) := by
  have hspec := saveSummariesLoop_spec writeOk
    (((byWindow.map MWindow.tabs).flatten).filter summaryEligible)
  have hsave1 : (saveTabSummariesToVault writeOk byWindow).1 =
      (((byWindow.map MWindow.tabs).flatten).filter summaryEligible).map summaryPathOf :=
    hspec.1
  have hsave2 : (saveTabSummariesToVault writeOk byWindow).2 =
      ((((byWindow.map MWindow.tabs).flatten).filter summaryEligible).filter
        (fun t => !(writeOk (summaryPathOf t)))).map MTab.id := hspec.2
  refine ⟨hspec.1, hspec.2, ?_, ?_, ?_, ?_⟩
  · intro w hw t ht
    unfold buildDayIndexLines
    apply List.mem_cons_of_mem
    rw [List.mem_flatten]
    refine ⟨(str "- " ++ w.windowLabel) ::
      w.tabs.map (fun t2 => str "\t- " ++ dayIndexLink (saveTabSummariesToVault writeOk byWindow).2 t2),
      List.mem_map_of_mem _ hw, ?_⟩
    exact List.mem_cons_of_mem _ (List.mem_map_of_mem _ ht)
  · intro w hw t ht helig
    have htflat : t ∈ (byWindow.map MWindow.tabs).flatten := by
      rw [List.mem_flatten]
      exact ⟨w.tabs, List.mem_map_of_mem _ hw, ht⟩
    constructor
    · intro hfail
      have htid : t.id ∈ (saveTabSummariesToVault writeOk byWindow).2 := by
        rw [hsave2]
        apply List.mem_map_of_mem
        exact List.mem_filter.mpr ⟨List.mem_filter.mpr ⟨htflat, helig⟩, by simp [hfail]⟩
      have hdec : decide (t.id ∉ (saveTabSummariesToVault writeOk byWindow).2) = false := by
        simp [htid]
      simp [dayIndexLink, hdec]
    · intro hok
      have htid : t.id ∉ (saveTabSummariesToVault writeOk byWindow).2 := by
        rw [hsave2]
        intro hmem
        obtain ⟨t2, ht2, hid⟩ := List.mem_map.mp hmem
        have ht2f := List.mem_filter.mp ht2
        have ht2flat := List.mem_filter.mp ht2f.1
        have heqt : t2 = t := List.inj_on_of_nodup_map hids ht2flat.1 htflat hid
        subst heqt
        rw [hok] at ht2f
        simp at ht2f
      have hfn : truthyOpt t.summaryFilename = true := by
        unfold summaryEligible at helig
        exact (Bool.and_eq_true _ _ ▸ helig).1
      have hdec : decide (t.id ∉ (saveTabSummariesToVault writeOk byWindow).2) = true :=
        decide_eq_true htid
      simp [dayIndexLink, hdec, hfn]
  · intro hall
    have hraw : saveRawToVault writeOk byWindow = (rawPathsAll byWindow, false) := by
      rw [saveRawToVault_eq_rawPhase]
      exact rawPhase_ok writeOk _ _ hall
    cases appendOk with
    | false => simp [savePhase, hraw, hsave1, hsave2]
    | true => simp [savePhase, hraw, hsave1, hsave2]
  · intro pre p post hdecomp hpre hp
    have hraw : saveRawToVault writeOk byWindow = (pre ++ [p], true) := by
      rw [saveRawToVault_eq_rawPhase]
      exact rawPhase_abort writeOk _ _ pre p post hdecomp hpre hp
    simp [savePhase, hraw]

/-- C2 witness: the amended theorem applied to a concrete two-tab batch with
    every write succeeding — the save phase runs in full: both raw files, both
    note files, no failures, day index appended. -/
theorem claim2_witness :
    savePhase (fun _ => true) true
      [⟨1, str "w", [⟨1, some (str "T1"), str "https://a/1", some (str "f1.md"),
        some (str "c1"), none, none, some (str "r1.txt"), some (str "x"), none, none⟩,
        ⟨2, some (str "T2"), str "https://a/2", some (str "f2.md"), some (str "c2"),
        none, none, some (str "r2.txt"), some (str "y"), none, none⟩]⟩] =
      ⟨rawPathsAll [⟨1, str "w", [⟨1, some (str "T1"), str "https://a/1",
          some (str "f1.md"), some (str "c1"), none, none, some (str "r1.txt"),
          some (str "x"), none, none⟩,
          ⟨2, some (str "T2"), str "https://a/2", some (str "f2.md"), some (str "c2"),
          none, none, some (str "r2.txt"), some (str "y"), none, none⟩]⟩],
        ((([⟨1, str "w", [⟨1, some (str "T1"), str "https://a/1", some (str "f1.md"),
          some (str "c1"), none, none, some (str "r1.txt"), some (str "x"), none, none⟩,
          ⟨2, some (str "T2"), str "https://a/2", some (str "f2.md"), some (str "c2"),
          none, none, some (str "r2.txt"), some (str "y"), none,
          none⟩]⟩].map MWindow.tabs).flatten).filter summaryEligible).map summaryPathOf,
        (((([⟨1, str "w", [⟨1, some (str "T1"), str "https://a/1", some (str "f1.md"),
          some (str "c1"), none, none, some (str "r1.txt"), some (str "x"), none, none⟩,
          ⟨2, some (str "T2"), str "https://a/2", some (str "f2.md"), some (str "c2"),
          none, none, some (str "r2.txt"), some (str "y"), none,
          none⟩]⟩].map MWindow.tabs).flatten).filter summaryEligible).filter
          (fun t => !((fun _ => true) (summaryPathOf t)))).map MTab.id,
        true, !true⟩ :=
  (claim2_amended (fun _ => true)
    [⟨1, str "w", [⟨1, some (str "T1"), str "https://a/1", some (str "f1.md"),
      some (str "c1"), none, none, some (str "r1.txt"), some (str "x"), none, none⟩,
      ⟨2, some (str "T2"), str "https://a/2", some (str "f2.md"), some (str "c2"),
      none, none, some (str "r2.txt"), some (str "y"), none, none⟩]⟩]
    (str "2026-10-11") true (by decide)).2.2.2.2.1 (fun p hp => rfl)

set_option maxHeartbeats 2000000 in
/-- C3 counterexample: a chat extraction with 4 deduplicated turns (3 User,
    1 Assistant — a role ratio of exactly 3:1) and exactly 80 raw characters
    satisfies the claim's condition "turn count ≥ 4 and raw chars ≥ 80 and
    ratio ≤ 3:1", yet the warning set is not empty: the code flags
    `biased_roles` already AT the 3:1 bound (`max ≥ 3·max(min,1)`), so the
    claimed equivalence is false. -/
theorem claim3_counterexample :
    (chatExtractionMeta ⟨[⟨str "User", str "turn one"⟩, ⟨str "User", str "turn two"⟩,
        ⟨str "User", str "turn three"⟩, ⟨str "Assistant", str "turn four"⟩],
        str "xxxxxxxxxxxxxxxxxxxxxxxxxxxxxxxxxxxxxxxxxxxxxxxxxxxxxxxxxxxxxxxxxxxxxxxxxxxxxxxx",
        0⟩).turns = 4 ∧
    (chatExtractionMeta ⟨[⟨str "User", str "turn one"⟩, ⟨str "User", str "turn two"⟩,
        ⟨str "User", str "turn three"⟩, ⟨str "Assistant", str "turn four"⟩],
        str "xxxxxxxxxxxxxxxxxxxxxxxxxxxxxxxxxxxxxxxxxxxxxxxxxxxxxxxxxxxxxxxxxxxxxxxxxxxxxxxx",
        0⟩).rawChars = 80 ∧
    chatUserCount ⟨[⟨str "User", str "turn one"⟩, ⟨str "User", str "turn two"⟩,
        ⟨str "User", str "turn three"⟩, ⟨str "Assistant", str "turn four"⟩],
        str "xxxxxxxxxxxxxxxxxxxxxxxxxxxxxxxxxxxxxxxxxxxxxxxxxxxxxxxxxxxxxxxxxxxxxxxxxxxxxxxx",
        0⟩ = 3 ∧
    chatAsstCount ⟨[⟨str "User", str "turn one"⟩, ⟨str "User", str "turn two"⟩,
        ⟨str "User", str "turn three"⟩, ⟨str "Assistant", str "turn four"⟩],
        str "xxxxxxxxxxxxxxxxxxxxxxxxxxxxxxxxxxxxxxxxxxxxxxxxxxxxxxxxxxxxxxxxxxxxxxxxxxxxxxxx",
        0⟩ = 1 ∧
    max 3 1 ≤ 3 * min 3 1 ∧
    (chatExtractionMeta ⟨[⟨str "User", str "turn one"⟩, ⟨str "User", str "turn two"⟩,
        ⟨str "User", str "turn three"⟩, ⟨str "Assistant", str "turn four"⟩],
        str "xxxxxxxxxxxxxxxxxxxxxxxxxxxxxxxxxxxxxxxxxxxxxxxxxxxxxxxxxxxxxxxxxxxxxxxxxxxxxxxx",
        0⟩).warnings = [str "biased_roles"] ∧
    (chatExtractionMeta ⟨[⟨str "User", str "turn one"⟩, ⟨str "User", str "turn two"⟩,
        ⟨str "User", str "turn three"⟩, ⟨str "Assistant", str "turn four"⟩],
        str "xxxxxxxxxxxxxxxxxxxxxxxxxxxxxxxxxxxxxxxxxxxxxxxxxxxxxxxxxxxxxxxxxxxxxxxxxxxxxxxx",
        0⟩).partialFlag = true := by
  decide

/-- C3 (amended): the warning set is empty exactly when the deduplicated turn
    count is ≥ 4, the raw character count is ≥ 80, and the User/Assistant ratio
    is STRICTLY below 3:1 (with the smaller count clamped to 1):
    `max(u,a) < 3·max(min(u,a),1)`.  Violating the turn-count minimum adds
    `low_turn_count`, violating the character minimum adds `short_raw_text`,
    and reaching or exceeding the ratio bound adds `biased_roles`; the
    `partial` flag is set iff the warning set is non-empty, and the warning
    list is recorded in the `extraction_warnings` frontmatter line of the
    note. -/
theorem claim3_amended (chat : ChatContent) (url rawContentPath rawChatPath windowLabel : Str)
    (hasRaw : Bool) (service date : Str) :
    ((chatExtractionMeta chat).warnings = [] ↔
      (4 ≤ (chatExtractionMeta chat).turns ∧ 80 ≤ (chatExtractionMeta chat).rawChars ∧
        max (chatUserCount chat) (chatAsstCount chat) <
          3 * max (min (chatUserCount chat) (chatAsstCount chat)) 1)) ∧
    ((chatExtractionMeta chat).turns < 4 ↔
      str "low_turn_count" ∈ (chatExtractionMeta chat).warnings) ∧
    ((chatExtractionMeta chat).rawChars < 80 ↔
      str "short_raw_text" ∈ (chatExtractionMeta chat).warnings) ∧
    (3 * max (min (chatUserCount chat) (chatAsstCount chat)) 1 ≤
        max (chatUserCount chat) (chatAsstCount chat) ↔
      str "biased_roles" ∈ (chatExtractionMeta chat).warnings) ∧
    ((chatExtractionMeta chat).partialFlag = true ↔ (chatExtractionMeta chat).warnings ≠ []) ∧
    (str "extraction_warnings: " ++ jsonStringifyArr (chatExtractionMeta chat).warnings) ∈
      buildChatReferenceFrontmatterLines url rawContentPath rawChatPath windowLabel hasRaw
        service date (chatExtractionMeta chat) := by
  have d1 : str "low_turn_count" ≠ str "short_raw_text" := by decide
  have d2 : str "low_turn_count" ≠ str "biased_roles" := by decide
  have d3 : str "short_raw_text" ≠ str "biased_roles" := by decide
  have hw : (chatExtractionMeta chat).warnings =
      (if (dedupeTurns chat.turns).length < 4 then [str "low_turn_count"] else []) ++
      (if chat.rawText.length < 80 then [str "short_raw_text"] else []) ++
      (if max (chatUserCount chat) (chatAsstCount chat) ≥
          3 * max (min (chatUserCount chat) (chatAsstCount chat)) 1 then
        [str "biased_roles"] else []) := rfl
  have ht : (chatExtractionMeta chat).turns = (dedupeTurns chat.turns).length := rfl
  have hr : (chatExtractionMeta chat).rawChars = chat.rawText.length := rfl
  have hpf : (chatExtractionMeta chat).partialFlag =
      decide ((chatExtractionMeta chat).warnings.length > 0) := rfl
  have hmem : (str "extraction_warnings: " ++ jsonStringifyArr (chatExtractionMeta chat).warnings) ∈
      buildChatReferenceFrontmatterLines url rawContentPath rawChatPath windowLabel hasRaw
        service date (chatExtractionMeta chat) := by
    unfold buildChatReferenceFrontmatterLines
    iterate 15 apply List.mem_cons_of_mem
    exact List.mem_cons_self _ _
  refine ⟨?_, ?_, ?_, ?_, ?_, hmem⟩
  · rw [hw, ht, hr]
    by_cases c1 : (dedupeTurns chat.turns).length < 4 <;>
    by_cases c2 : chat.rawText.length < 80 <;>
    by_cases c3 : max (chatUserCount chat) (chatAsstCount chat) ≥
        3 * max (min (chatUserCount chat) (chatAsstCount chat)) 1 <;>
    simp [c1, c2, c3, ge_iff_le] <;> omega
  · rw [hw, ht]
    by_cases c1 : (dedupeTurns chat.turns).length < 4 <;>
    by_cases c2 : chat.rawText.length < 80 <;>
    by_cases c3 : max (chatUserCount chat) (chatAsstCount chat) ≥
        3 * max (min (chatUserCount chat) (chatAsstCount chat)) 1 <;>
    simp [c1, c2, c3, d1, d2, d1.symm, d2.symm]
  · rw [hw, hr]
    by_cases c1 : (dedupeTurns chat.turns).length < 4 <;>
    by_cases c2 : chat.rawText.length < 80 <;>
    by_cases c3 : max (chatUserCount chat) (chatAsstCount chat) ≥
        3 * max (min (chatUserCount chat) (chatAsstCount chat)) 1 <;>
    simp [c1, c2, c3, d1, d3, d1.symm, d3.symm]
  · rw [hw]
    by_cases c1 : (dedupeTurns chat.turns).length < 4 <;>
    by_cases c2 : chat.rawText.length < 80 <;>
    by_cases c3 : max (chatUserCount chat) (chatAsstCount chat) ≥
        3 * max (min (chatUserCount chat) (chatAsstCount chat)) 1 <;>
    simp [c1, c2, c3, d2, d3, d2.symm, d3.symm, ge_iff_le]
  · rw [hpf]
    simp [List.length_pos]

/-- C3 witness: the amended equivalence applied at a concrete healthy
    extraction (4 turns, 2:2 roles, 80 raw characters) — no warnings. -/
theorem claim3_witness :
    (chatExtractionMeta ⟨[⟨str "User", str "q1"⟩, ⟨str "Assistant", str "a1"⟩,
        ⟨str "User", str "q2"⟩, ⟨str "Assistant", str "a2"⟩],
        str "xxxxxxxxxxxxxxxxxxxxxxxxxxxxxxxxxxxxxxxxxxxxxxxxxxxxxxxxxxxxxxxxxxxxxxxxxxxxxxxx",
        0⟩).warnings = [] :=
  (claim3_amended ⟨[⟨str "User", str "q1"⟩, ⟨str "Assistant", str "a1"⟩,
      ⟨str "User", str "q2"⟩, ⟨str "Assistant", str "a2"⟩],
      str "xxxxxxxxxxxxxxxxxxxxxxxxxxxxxxxxxxxxxxxxxxxxxxxxxxxxxxxxxxxxxxxxxxxxxxxxxxxxxxxx",
      0⟩ (str "u") (str "r") (str "rc") (str "w") false (str "s")
    (str "2026-10-11")).1.mpr (by decide)

/-- C1 counterexample: a chat tab whose extraction yields outright capture
    failure (empty raw text and zero turns; the warning set is exactly
    `[low_turn_count, short_raw_text]`) does NOT skip the AI distillation call:
    the `callAI` invocation is reached (first component `true`) whether the
    call then fails (`none`) or succeeds, so no "capture failed" placeholder is
    emitted in its place — the claim's skip-policy does not exist in the code. -/
theorem claim1_counterexample :
    (chatExtractionMeta ⟨[], [], 0⟩).warnings = [str "low_turn_count", str "short_raw_text"] ∧
    (runChatDistillForTab ⟨str "https://chatgpt.com/c/1", some (str "Chat"), str "00000000",
      none, some (str "chatgpt"), str "w", str "memory/raw_content/chat-chatgpt_00000000.md",
      str "2026-10-11", str "2026-10-11T00:00:00.000Z", str "base"⟩ ⟨[], [], 0⟩ none).1 = true ∧
    (runChatDistillForTab ⟨str "https://chatgpt.com/c/1", some (str "Chat"), str "00000000",
      none, some (str "chatgpt"), str "w", str "memory/raw_content/chat-chatgpt_00000000.md",
      str "2026-10-11", str "2026-10-11T00:00:00.000Z", str "base"⟩ ⟨[], [], 0⟩
      (some ⟨str "t", [str "p"], str "s", [], str "", [], str ""⟩)).1 = true :=
  ⟨by decide, rfl, rfl⟩

/-- C1 (amended): for every chat tab — including those whose extraction
    warnings signal capture failure — the pipeline still performs the AI
    distillation call (`aiCalled = true` on every path); the warning list is
    recorded in the note's `extraction_warnings` frontmatter line, and when the
    warning set is non-empty the note carries `extraction_partial: true`;
    the AI-failure fallback is a raw-transcript note, not a capture-failed
    placeholder. -/
theorem claim1_amended (a : ChatDistillArgs) (chat : ChatContent)
    (aiO : Option ChatDistillJson) :
    (runChatDistillForTab a chat aiO).1 = true ∧
    ((chatExtractionMeta chat).warnings ≠ [] →
      containsSubstr (runChatDistillForTab a chat aiO).2.2
        (str "extraction_partial: true") = true) ∧
    containsSubstr (runChatDistillForTab a chat aiO).2.2
      (str "extraction_warnings: " ++ jsonStringifyArr (chatExtractionMeta chat).warnings) =
      true := by
  have hshape : ∃ rest, (runChatDistillForTab a chat aiO).2.2 =
      joinNL (buildChatReferenceFrontmatterLines a.url (a.rawContentPathForSummary.getD rawUnset)
        a.rawChatPath a.windowLabel
        (decide (a.rawContentPathForSummary.getD rawUnset ≠ rawUnset))
        (a.chatService.getD (str "unknown")) a.date (chatExtractionMeta chat)) ++ rest := by
    cases aiO with
    | none =>
      exact ⟨_, by
        simp only [runChatDistillForTab, buildChatReferenceFrontmatter, List.append_assoc]
        rfl⟩
    | some j =>
      exact ⟨_, by
        simp only [runChatDistillForTab, buildChatReferenceFrontmatter, List.append_assoc]
        rfl⟩
  obtain ⟨rest, hsh⟩ := hshape
  refine ⟨?_, ?_, ?_⟩
  · cases aiO <;> rfl
  · intro hwne
    have hpf : (chatExtractionMeta chat).partialFlag = true := by
      have hdef : (chatExtractionMeta chat).partialFlag =
          decide ((chatExtractionMeta chat).warnings.length > 0) := rfl
      rw [hdef]
      simp [List.length_pos, hwne]
    have hline : (str "extraction_partial: true") ∈
        buildChatReferenceFrontmatterLines a.url (a.rawContentPathForSummary.getD rawUnset)
          a.rawChatPath a.windowLabel
          (decide (a.rawContentPathForSummary.getD rawUnset ≠ rawUnset))
          (a.chatService.getD (str "unknown")) a.date (chatExtractionMeta chat) := by
      have hsplit : str "extraction_partial: true" =
          str "extraction_partial: " ++ boolStr (chatExtractionMeta chat).partialFlag := by
        rw [hpf]; decide
      rw [hsplit]
      unfold buildChatReferenceFrontmatterLines
      iterate 14 apply List.mem_cons_of_mem
      exact List.mem_cons_self _ _
    rw [hsh]
    exact containsSubstr_joinNL_append _ _ _ hline (by decide)
  · have hline : (str "extraction_warnings: " ++
        jsonStringifyArr (chatExtractionMeta chat).warnings) ∈
        buildChatReferenceFrontmatterLines a.url (a.rawContentPathForSummary.getD rawUnset)
          a.rawChatPath a.windowLabel
          (decide (a.rawContentPathForSummary.getD rawUnset ≠ rawUnset))
          (a.chatService.getD (str "unknown")) a.date (chatExtractionMeta chat) := by
      unfold buildChatReferenceFrontmatterLines
      iterate 15 apply List.mem_cons_of_mem
      exact List.mem_cons_self _ _
    rw [hsh]
    refine containsSubstr_joinNL_append _ _ _ hline ?_
    have h22 : (str "extraction_warnings: ").length = 21 := by decide
    intro h
    have hl := congrArg List.length h
    rw [List.length_append, h22] at hl
    simp at hl

/-- C1 witness: the amended theorem applied at the concrete capture-failure
    input, discharging the non-empty-warnings hypothesis. -/
theorem claim1_witness :
    containsSubstr (runChatDistillForTab ⟨str "https://chatgpt.com/c/1", some (str "Chat"),
      str "00000000", none, some (str "chatgpt"), str "w",
      str "memory/raw_content/chat-chatgpt_00000000.md", str "2026-10-11",
      str "2026-10-11T00:00:00.000Z", str "base"⟩ ⟨[], [], 0⟩ none).2.2
      (str "extraction_partial: true") = true :=
  (claim1_amended ⟨str "https://chatgpt.com/c/1", some (str "Chat"), str "00000000",
    none, some (str "chatgpt"), str "w", str "memory/raw_content/chat-chatgpt_00000000.md",
    str "2026-10-11", str "2026-10-11T00:00:00.000Z", str "base"⟩ ⟨[], [], 0⟩ none).2.1
    (by decide)

theorem summaryFetchText_some (a : UrlSummaryArgs) (twO jinaO : Option Str) (t0 : Str)
    (hj : jinaO = some t0) : ∃ t1, summaryFetchText a twO jinaO = some t1 := by
  unfold summaryFetchText twitterThreadResult
  cases htw : twitterHostTest a.url with
  | false => exact ⟨t0, by simp [hj]⟩
  | true =>
    cases twO with
    | none => exact ⟨t0, by simp [hj]⟩
    | some s =>
      by_cases hts : trimList s = []
      · exact ⟨t0, by simp [hts, hj]⟩
      · have hlen : 0 < (trimList s).length := List.length_pos.mpr hts
        exact ⟨trimList s, by simp [hts, hlen]⟩

/-- C8 counterexample: with the text fetch succeeding on every attempt and the
    AI summarization failing on attempt 0 but able to succeed on attempts 1 and
    2, the pipeline does NOT retry: it makes exactly one
    `runUrlSummaryForTab` call and one AI call and immediately falls back to
    the `p-untitled` placeholder note — the AI page-summary failure is caught
    inside `runUrlSummaryForTab`, so the outer 3-attempt retry loop never sees
    it, contradicting "retried up to 3 attempts before the tab falls back to a
    placeholder note". -/
theorem claim8_counterexample :
    urlSummaryStage ⟨str "https://e.x/", some (str "t"), str "00000000", none, [],
        str "lbl", str "2026-10-11", str "base"⟩
      (fun _ => none) (fun _ => some (str "TEXT"))
      (fun n => if n = 0 then none else some (str "BODY")) =
      ((str "p-untitled_" ++ str "00000000" ++ str ".md",
        buildPlaceholderSummaryMd (str "https://e.x/") [] none (some (str "lbl"))
          (str "2026-10-11")), 1, 1) ∧
    ((fun n : Nat => if n = 0 then (none : Option Str) else some (str "BODY")) 1).isSome =
      true :=
  ⟨rfl, rfl⟩

/-- C8 (amended): the up-to-3-attempt retry applies to the text-fetch step: if
    the Jina fetch throws on all three attempts (non-Twitter tab), there are
    exactly 3 attempts, no AI call, and the `p-untitled` placeholder note.  If
    the text fetch succeeds on the first attempt, exactly one
    `runUrlSummaryForTab` call and exactly one AI call are made — an AI
    page-summary failure is not retried but answered immediately with the
    placeholder note.  Chat distillation is attempted exactly once: its stage
    reads only attempt index 0 of its oracle, and on exception the fallback is
    the raw-transcript note carrying the verbatim conversation. -/
theorem claim8_amended (a : UrlSummaryArgs) (tw jina ai : Nat → Option Str)
    (aCh : ChatDistillArgs) (chat : ChatContent) (f g : Nat → Option ChatDistillJson) :
    (twitterHostTest a.url = false → (∀ k, k < 3 → jina k = none) →
      urlSummaryStage a tw jina ai =
        ((str "p-untitled_" ++ a.uid ++ str ".md",
          buildPlaceholderSummaryMd a.url a.extractedUrls a.rawContentPathForSummary
            (some a.windowLabel) a.date), 3, 0)) ∧
    (jina 0 ≠ none →
      (urlSummaryStage a tw jina ai).2.1 = 1 ∧
      (urlSummaryStage a tw jina ai).2.2 = 1 ∧
      (ai 0 = none → (urlSummaryStage a tw jina ai).1 =
        (str "p-untitled_" ++ a.uid ++ str ".md",
          buildPlaceholderSummaryMd a.url a.extractedUrls a.rawContentPathForSummary
            (some a.windowLabel) a.date))) ∧
    (f 0 = g 0 → chatStage aCh chat f = chatStage aCh chat g) ∧
    (∃ pre, (runChatDistillForTab aCh chat none).2.2 =
      pre ++ str "\n\n## 会話\n" ++ chatConversationMd chat ++ str "\n") := by
  refine ⟨?_, ?_, ?_, ?_⟩
  · intro htw hj
    have hrun : ∀ k, jina k = none →
        runUrlSummaryForTab a (tw k) (jina k) (ai k) = (none, false) := by
      intro k hk
      unfold runUrlSummaryForTab summaryFetchText
      simp [htw, hk]
    have hr0 := hrun 0 (hj 0 (by omega))
    have hr1 := hrun 1 (hj 1 (by omega))
    have hr2 := hrun 2 (hj 2 (by omega))
    simp [urlSummaryStage, runAttempts, hr0, hr1, hr2]
  · intro hj0
    obtain ⟨t0, ht0⟩ := Option.ne_none_iff_exists'.mp hj0
    obtain ⟨t1, ht1⟩ := summaryFetchText_some a (tw 0) (jina 0) t0 ht0
    cases hai : ai 0 with
    | none =>
      have h0 : runUrlSummaryForTab a (tw 0) (jina 0) (ai 0) =
          (some (str "p-untitled_" ++ a.uid ++ str ".md",
            buildPlaceholderSummaryMd a.url a.extractedUrls a.rawContentPathForSummary
              (some a.windowLabel) a.date), true) := by
        unfold runUrlSummaryForTab
        rw [ht1, hai]
      refine ⟨?_, ?_, ?_⟩
      · simp [urlSummaryStage, runAttempts, h0]
      · simp [urlSummaryStage, runAttempts, h0]
      · intro _
        simp [urlSummaryStage, runAttempts, h0]
    | some body =>
      have h0 : runUrlSummaryForTab a (tw 0) (jina 0) (ai 0) =
          (some (mkSummaryFilename a.baseOnSuccess a.uid,
            appendUrlsToPointsSection
              (buildClipFrontmatter a.url (a.rawContentPathForSummary.getD rawUnset)
                a.windowLabel (decide (a.rawContentPathForSummary.getD rawUnset ≠ rawUnset))
                a.date ++ str "\n\n" ++ body) a.extractedUrls), true) := by
        unfold runUrlSummaryForTab
        rw [ht1, hai]
      refine ⟨?_, ?_, ?_⟩
      · simp [urlSummaryStage, runAttempts, h0]
      · simp [urlSummaryStage, runAttempts, h0]
      · intro hcontra
        exact Option.noConfusion hcontra
  · intro h
    unfold chatStage
    rw [h]
  · have hsplit : str "\n\n## 要点\n- （distill未取得）\n\n## 会話\n" =
        str "\n\n## 要点\n- （distill未取得）" ++ str "\n\n## 会話\n" := by decide
    refine ⟨buildChatReferenceFrontmatter aCh.url (aCh.rawContentPathForSummary.getD rawUnset)
      aCh.rawChatPath aCh.windowLabel
      (decide (aCh.rawContentPathForSummary.getD rawUnset ≠ rawUnset))
      (aCh.chatService.getD (str "unknown")) aCh.date (chatExtractionMeta chat) ++
      str "\n\n## 要点\n- （distill未取得）", ?_⟩
    have hdef : (runChatDistillForTab aCh chat none).2.2 =
        buildChatReferenceFrontmatter aCh.url (aCh.rawContentPathForSummary.getD rawUnset)
          aCh.rawChatPath aCh.windowLabel
          (decide (aCh.rawContentPathForSummary.getD rawUnset ≠ rawUnset))
          (aCh.chatService.getD (str "unknown")) aCh.date (chatExtractionMeta chat) ++
          str "\n\n## 要点\n- （distill未取得）\n\n## 会話\n" ++
          chatConversationMd chat ++ str "\n" := rfl
    rw [hdef, hsplit]
    simp [List.append_assoc]

/-- C8 witness: a non-Twitter tab whose text fetch throws on all three
    attempts is retried exactly three times, never reaches the AI, and falls
    back to the placeholder note. -/
theorem claim8_witness :
    urlSummaryStage ⟨str "https://e.x/", some (str "t"), str "00000000", none, [],
        str "lbl", str "2026-10-11", str "base"⟩ (fun _ => none) (fun _ => none)
        (fun _ => some (str "BODY")) =
      ((str "p-untitled_" ++ str "00000000" ++ str ".md",
        buildPlaceholderSummaryMd (str "https://e.x/") [] none (some (str "lbl"))
          (str "2026-10-11")), 3, 0) :=
  (claim8_amended ⟨str "https://e.x/", some (str "t"), str "00000000", none, [],
      str "lbl", str "2026-10-11", str "base"⟩ (fun _ => none) (fun _ => none)
      (fun _ => some (str "BODY"))
      ⟨str "https://chatgpt.com/c/1", some (str "Chat"), str "00000000", none,
        some (str "chatgpt"), str "w", str "memory/raw_content/chat-chatgpt_00000000.md",
        str "2026-10-11", str "2026-10-11T00:00:00.000Z", str "base"⟩
      ⟨[], [], 0⟩ (fun _ => none) (fun _ => none)).1 (by decide) (fun k hk => rfl)

/-- `i` is the first occurrence of `pat` in `s` at or after `start`. -/
def firstOccurFromP (pat s : Str) (start i : Nat) : Prop :=
  start ≤ i ∧ occursAt pat s i = true ∧ ∀ j, start ≤ j → j < i → occursAt pat s j = false

/-- C4 counterexample: in `"## 要点\n- a\n## B\nx"` a `##` heading (`## B`, at
    index 10) follows the points section, but no `"\n\n## "` boundary exists,
    so the code appends the `- url` line at the very END of the document (index
    17), i.e. AFTER the following heading — not "exactly before the next `##`
    heading" as the claim states. -/
theorem claim4_counterexample :
    appendUrlsToPointsSection (str "## 要点\n- a\n## B\nx") [str "https://u"] =
      str "## 要点\n- a\n## B\nx" ++ str "\n- https://u" ∧
    occursAt (str "\n## ") (str "## 要点\n- a\n## B\nx") 9 = true ∧
    indexOfFrom (str "## 要点\n- a\n## B\nx") nextSectionSep pointsHeading.length = none ∧
    indexOfFrom (appendUrlsToPointsSection (str "## 要点\n- a\n## B\nx") [str "https://u"])
      (str "## B") 0 = some 10 ∧
    indexOfFrom (appendUrlsToPointsSection (str "## 要点\n- a\n## B\nx") [str "https://u"])
      (str "- https://u") 0 = some 17 := by
  decide

/-- C4 (amended): `appendUrlsToPointsSection(md, [])` is a no-op, and so is the
    call when `md` has no `"## 要点\n"` heading; for non-empty `urls` and `md`
    containing the heading (first occurrence at `idx`), the `- url` lines,
    preceded by a newline, are inserted exactly at the FIRST `"\n\n## "`
    boundary (a blank line followed by a `##` heading) after the heading — the
    rest of `md` unchanged — or appended at the very end of the document when
    no such blank-line-preceded heading follows. -/
theorem claim4_amended (md : Str) (urls : List Str) (hne : urls ≠ []) :
    appendUrlsToPointsSection md [] = md ∧
    ((∀ j, occursAt pointsHeading md j = false) → appendUrlsToPointsSection md urls = md) ∧
    (∀ idx, firstOccurFromP pointsHeading md 0 idx →
      (∀ p, firstOccurFromP nextSectionSep md (idx + pointsHeading.length) p →
        appendUrlsToPointsSection md urls =
          md.take p ++ str "\n" ++ joinNL (urls.map (fun u => str "- " ++ u)) ++ md.drop p ∧
        md.take p ++ md.drop p = md) ∧
      ((∀ j, idx + pointsHeading.length ≤ j → occursAt nextSectionSep md j = false) →
        appendUrlsToPointsSection md urls =
          md ++ str "\n" ++ joinNL (urls.map (fun u => str "- " ++ u)))) := by
  have hlen : ¬ urls.length = 0 := fun h => hne (List.length_eq_zero.mp h)
  refine ⟨?_, ?_, ?_⟩
  · simp [appendUrlsToPointsSection]
  · intro hno
    have hnone : indexOfFrom md pointsHeading 0 = none := by
      cases hidx : indexOfFrom md pointsHeading 0 with
      | none => rfl
      | some r =>
        have := (indexOfFrom_some md pointsHeading 0 r hidx).2.1
        rw [hno r] at this
        exact absurd this (by simp)
    simp [appendUrlsToPointsSection, hlen, hnone]
  · intro idx hfirst
    have hph : pointsHeading ≠ [] := by decide
    have hidx : indexOfFrom md pointsHeading 0 = some idx :=
      indexOfFrom_eq_some_of_first md pointsHeading hph 0 idx hfirst.1 hfirst.2.1 hfirst.2.2
    constructor
    · intro p hp
      have hsep : nextSectionSep ≠ [] := by decide
      have hidx2 : indexOfFrom md nextSectionSep (idx + pointsHeading.length) = some p :=
        indexOfFrom_eq_some_of_first md nextSectionSep hsep _ p hp.1 hp.2.1 hp.2.2
      refine ⟨?_, List.take_append_drop p md⟩
      simp [appendUrlsToPointsSection, hlen, hidx, hidx2]
    · intro hafter
      have hnone2 : indexOfFrom md nextSectionSep (idx + pointsHeading.length) = none := by
        cases hidx2 : indexOfFrom md nextSectionSep (idx + pointsHeading.length) with
        | none => rfl
        | some r =>
          have hr := indexOfFrom_some md nextSectionSep _ r hidx2
          have := hafter r hr.1
          rw [this] at hr
          exact absurd hr.2.1 (by simp)
      simp [appendUrlsToPointsSection, hlen, hidx, hnone2, List.take_length,
        List.drop_length]

/-- C4 witness: the empty-URL no-op of the amended theorem at a concrete
    document. -/
theorem claim4_witness : appendUrlsToPointsSection (str "z") [] = str "z" :=
  (claim4_amended (str "z") [str "u"] (by decide)).1

/-- The last line of a block of text. -/
def lastLineOf (s : Str) : Str := (s.splitOn '\n').getLastD []

/-- The last line of the `## 要点` section of a note (the text between the
    points heading and the next blank line, or the end of the document). -/
def pointsSectionLastLine (md : Str) : Option Str :=
  match indexOfFrom md pointsHeading 0 with
  | none => none
  | some idx =>
    let a := idx + pointsHeading.length
    let e := (indexOfFrom md (str "\n\n") a).getD md.length
    some (lastLineOf ((md.take e).drop a))

set_option maxHeartbeats 2000000 in
/-- C5 counterexample: for the claimed scenario (tab URL
    `https://example.com/a`, title `Example — Site Name`, body text containing
    `https://foo.bar/x`), the pipeline wraps the body-text URL as a markdown
    link `[u](u)` (popup.ts:2414), so the points section of the produced note
    ends with the line `- [https://foo.bar/x](https://foo.bar/x)` and NOT with
    the bare `- https://foo.bar/x` the claim states. -/
theorem claim5_counterexample :
    computeExtractedUrls (some (str "see https://foo.bar/x for details")) [] =
      [str "[https://foo.bar/x](https://foo.bar/x)"] ∧
    pointsSectionLastLine (buildPlaceholderSummaryMd (str "https://example.com/a")
        (computeExtractedUrls (some (str "see https://foo.bar/x for details")) [])
        (some (str "memory/raw_content/p-Example — Site Name_0a1b2c3d.txt"))
        (some (str "w")) (str "2026-10-11")) =
      some (str "- [https://foo.bar/x](https://foo.bar/x)") ∧
    pointsSectionLastLine (buildPlaceholderSummaryMd (str "https://example.com/a")
        (computeExtractedUrls (some (str "see https://foo.bar/x for details")) [])
        (some (str "memory/raw_content/p-Example — Site Name_0a1b2c3d.txt"))
        (some (str "w")) (str "2026-10-11")) ≠
      some (str "- https://foo.bar/x") := by
  refine ⟨by decide, by decide, by decide⟩

/-- The shape of a placeholder note with a provided raw-content path: the
    joined frontmatter lines followed by the points/summary/tags body. -/
theorem buildPlaceholder_shape (url : Str) (eus : List Str) (q wl date : Str) :
    buildPlaceholderSummaryMd url eus (some q) (some wl) date =
    joinNL (buildClipFrontmatterLines url q wl (decide (q ≠ rawUnset)) date) ++
    (str "\n\n## 要点\n" ++
      (if eus.length > 0 then
        str "- （要約は未取得）\n" ++ joinNL (eus.map (fun u => str "- " ++ u))
      else str "- （要約は未取得）") ++
      str "\n\n## 要約\n（未取得）\n\n### tags\n（未設定）\n") := by
  unfold buildPlaceholderSummaryMd buildClipFrontmatter
  simp [List.append_assoc]

set_option maxHeartbeats 2000000 in
/-- C5 (amended): for the scenario tab (URL `https://example.com/a`, title
    `Example — Site Name`, body text containing `https://foo.bar/x`) and any
    8-hex uid draw, the note's frontmatter declares `source_type: web`, the
    points section ends with the markdown-link line
    `- [https://foo.bar/x](https://foo.bar/x)` (whose target is the extracted
    URL), and the filename is `p-Example — Site Name_<uid>.md`, matching the
    `p-*_<8 hex chars>.md` pattern. -/
theorem claim5_amended (uid : Str) (h8 : uid.length = 8)
    (hhex : ∀ c ∈ uid, isHexDigitChar c = true) :
    detectSourceType (str "https://example.com/a") = str "web" ∧
    containsSubstr (buildPlaceholderSummaryMd (str "https://example.com/a")
        (computeExtractedUrls (some (str "see https://foo.bar/x for details")) [])
        (some (str "memory/raw_content/" ++ str "p-" ++
          getBaseForTab (some (str "Example — Site Name")) ++ str "_" ++ uid ++ str ".txt"))
        (some (str "w")) (str "2026-10-11"))
      (str "source_type: web") = true ∧
    (∃ pre post, buildPlaceholderSummaryMd (str "https://example.com/a")
        (computeExtractedUrls (some (str "see https://foo.bar/x for details")) [])
        (some (str "memory/raw_content/" ++ str "p-" ++
          getBaseForTab (some (str "Example — Site Name")) ++ str "_" ++ uid ++ str ".txt"))
        (some (str "w")) (str "2026-10-11") =
        pre ++ str "\n\n## 要点\n" ++
          (str "- （要約は未取得）\n- [https://foo.bar/x](https://foo.bar/x)") ++
          str "\n\n## 要約" ++ post ∧
      lastLineOf (str "- （要約は未取得）\n- [https://foo.bar/x](https://foo.bar/x)") =
        str "- [https://foo.bar/x](https://foo.bar/x)") ∧
    (∃ mid u, mkSummaryFilename (getBaseForTab (some (str "Example — Site Name"))) uid =
        str "p-" ++ mid ++ str "_" ++ u ++ str ".md" ∧
      u.length = 8 ∧ ∀ c ∈ u, isHexDigitChar c = true) := by
  have hurls : computeExtractedUrls (some (str "see https://foo.bar/x for details")) [] =
      [str "[https://foo.bar/x](https://foo.bar/x)"] := by decide
  have hraw : (str "memory/raw_content/" ++ str "p-" ++
      getBaseForTab (some (str "Example — Site Name")) ++ str "_" ++ uid ++ str ".txt") ≠
      rawUnset := by
    intro h
    have hl := congrArg List.length h
    have l1 : (str "memory/raw_content/").length = 19 := by decide
    have l2 : (str "p-").length = 2 := by decide
    have l3 : (getBaseForTab (some (str "Example — Site Name"))).length = 19 := by decide
    have l4 : (str "_").length = 1 := by decide
    have l5 : (str ".txt").length = 4 := by decide
    have l6 : rawUnset.length = 5 := by decide
    simp only [List.length_append, l1, l2, l3, l4, l5, l6, h8] at hl
    omega
  have hdec : decide ((str "memory/raw_content/" ++ str "p-" ++
      getBaseForTab (some (str "Example — Site Name")) ++ str "_" ++ uid ++ str ".txt") ≠
      rawUnset) = true := decide_eq_true hraw
  have hpts : (if ([str "[https://foo.bar/x](https://foo.bar/x)"] : List Str).length > 0 then
      str "- （要約は未取得）\n" ++
        joinNL (([str "[https://foo.bar/x](https://foo.bar/x)"] : List Str).map
          (fun u => str "- " ++ u))
    else str "- （要約は未取得）") =
      str "- （要約は未取得）\n- [https://foo.bar/x](https://foo.bar/x)" := by decide
  have hshape := buildPlaceholder_shape (str "https://example.com/a")
    (computeExtractedUrls (some (str "see https://foo.bar/x for details")) [])
    (str "memory/raw_content/" ++ str "p-" ++
      getBaseForTab (some (str "Example — Site Name")) ++ str "_" ++ uid ++ str ".txt")
    (str "w") (str "2026-10-11")
  rw [hurls, hpts, hdec] at hshape
  refine ⟨by decide, ?_, ?_, ?_⟩
  · have hmem : (str "source_type: web") ∈ buildClipFrontmatterLines
        (str "https://example.com/a")
        (str "memory/raw_content/" ++ str "p-" ++
          getBaseForTab (some (str "Example — Site Name")) ++ str "_" ++ uid ++ str ".txt")
        (str "w") true (str "2026-10-11") := by
      have hsplit : str "source_type: web" =
          str "source_type: " ++ detectSourceType (str "https://example.com/a") := by decide
      rw [hsplit]
      unfold buildClipFrontmatterLines
      apply List.mem_cons_of_mem
      exact List.mem_cons_self _ _
    rw [hurls, hshape]
    exact containsSubstr_joinNL_append _ _ _ hmem (by decide)
  · refine ⟨joinNL (buildClipFrontmatterLines (str "https://example.com/a")
      (str "memory/raw_content/" ++ str "p-" ++
        getBaseForTab (some (str "Example — Site Name")) ++ str "_" ++ uid ++ str ".txt")
      (str "w") true (str "2026-10-11")),
      str "\n（未取得）\n\n### tags\n（未設定）\n", ?_, by decide⟩
    rw [hurls, hshape]
    rw [show str "\n\n## 要約\n（未取得）\n\n### tags\n（未設定）\n" =
      str "\n\n## 要約" ++ str "\n（未取得）\n\n### tags\n（未設定）\n" from by decide]
    simp [List.append_assoc]
  · exact ⟨getBaseForTab (some (str "Example — Site Name")), uid, rfl, h8, hhex⟩

/-- C5 witness: the amended theorem at a concrete 8-hex uid. -/
theorem claim5_witness :
    detectSourceType (str "https://example.com/a") = str "web" :=
  (claim5_amended (str "0a1b2c3d") (by decide) (by decide)).1

end TabReaper
